import Mathlib

/-!
# RPM clock vote controller (arch/arm/mach-msm/clock-rpm.c)

A shallow embedding of the clock operations of `clock-rpm.c` and the
properties of its voting protocol.

Conventions of the embedding.

* The driver runs every operation under the single spinlock
  `rpm_clock_lock`, so each operation is modelled as one atomic function.
* `r->peer` is a pointer to a second `struct rpm_clk`; an operation on `r`
  reads the peer and never writes it, so the handle-level functions take the
  peer's record as a read-only argument and return the new record of `r`.
  `RpmSys` puts two handles together with `a.peer = b` and `b.peer = a`.
* The remote processor is the collaborator behind `msm_rpmrs_set_noirq`.
  Its answers are given by an arbitrary function of the history of calls,
  and every call is appended to a log together with the code it returned.
* `unsigned long` and `uint32_t` are 32 bits wide on this target; values are
  natural numbers and are reduced modulo `2 ^ 32` where the C arithmetic can
  wrap (`DIV_ROUND_UP`, `iv.value * 1000`, the conversion of a negative `int`
  to `unsigned long`). `max` and `!!` cannot leave the range of their
  arguments.
* The status query `msm_rpm_get_status` is answered by a function of the
  status id; in a sequence of calls every call carries its own answer, so the
  answers may change from call to call.
* For the locking discipline the operations are embedded a second time as
  the list of their steps in program order (`rpm_clk_enable_events` and the
  like); these lists are proved to agree with the functional embedding. Two
  operations running concurrently are a merge of their step lists that the
  lock admits (`lockAdmits`).
* For the frame of the peer the operations that assign to memory are embedded
  on a memory holding both objects of a pair with their `peer` pointers
  (`rpm_clk_enable_mem` and the like), every access going through a pointer;
  they are proved to agree with the functional embedding.
-/

namespace ClockRpm

/-- Number of values of an `unsigned long` on the 32-bit ARM target. -/
def ULONG_MOD : Nat := 2 ^ 32

/-- The two voting contexts of the remote set call. -/
inductive RpmCtx where
  | MSM_RPM_CTX_SET_0
  | MSM_RPM_CTX_SET_SLEEP
  deriving DecidableEq, Repr

/-- One remote set call as it was issued: the context, the `iv.id` and
`iv.value` of the single pair passed, and the code the call returned. -/
structure RpmSet where
  ctx : RpmCtx
  iv_id : Nat
  iv_value : Nat
  rc : Int
  deriving DecidableEq, Repr

/-- State of the remote side as far as the driver can observe it: the remote
set calls issued so far, oldest first. -/
structure Rpm where
  log : List RpmSet
  deriving DecidableEq, Repr

/-- Behaviour of the collaborator: the code returned by a remote set call,
given the calls issued before it, its context, resource id and value. -/
abbrev RpmEnv := List RpmSet → RpmCtx → Nat → Nat → Int

/-- Modelled from the spec: `msm_rpmrs_set_noirq` is declared in
`rpm_resources.h`, which is not part of the sources at hand. The spec gives
its contract as `remoteSet(context, resourceId, value) -> success|failure`;
the call returns the collaborator's code (0 for success) and is recorded. -/
def msm_rpmrs_set_noirq (env : RpmEnv) (w : Rpm) (ctx : RpmCtx) (iv_id iv_value : Nat) :
    Int × Rpm :=
  (env w.log ctx iv_id iv_value,
   { log := w.log ++ [{ ctx := ctx, iv_id := iv_id, iv_value := iv_value,
                        rc := env w.log ctx iv_id iv_value }] })

/-- Modelled from the spec: `struct rpm_clk` is declared in `clock-rpm.h`,
which is not part of the sources at hand. The fields are the ones the
operations access (`remoteActiveId`, `remoteStatusId`, `activeOnly`,
`lastSetActiveKHz`, `lastSetSleepKHz`, `enabled`, `isBranch` of the spec);
`rate` is the `rate` field of the embedded generic `struct clk`. The `peer`
pointer is represented by passing the peer's record to each operation. -/
structure rpm_clk where
  rpm_clk_id : Nat
  rpm_status_id : Nat
  active_only : Bool
  last_set_khz : Nat
  last_set_sleep_khz : Nat
  enabled : Bool
  branch : Bool
  rate : Nat
  deriving DecidableEq, Repr

/-- The C expression `!!x` on an unsigned value. -/
def notnot (x : Nat) : Nat := if x = 0 then 0 else 1

/-- The kernel's `DIV_ROUND_UP(n, d)`, that is `((n) + (d) - 1) / (d)`,
evaluated in `unsigned long` arithmetic. -/
def DIV_ROUND_UP (n d : Nat) : Nat := ((n + d - 1) % ULONG_MOD) / d

/-- The code after the label `out:` of `rpm_clk_enable`: the handle is marked
enabled when `rc` is 0, and `rc` is returned. -/
def rpm_clk_enable_out (rc : Int) (r : rpm_clk) (w : Rpm) : Int × rpm_clk × Rpm :=
  (rc, if rc = 0 then { r with enabled := true } else r, w)

/-- The function `rpm_clk_enable` of the source. -/
def rpm_clk_enable (env : RpmEnv) (r peer : rpm_clk) (w : Rpm) : Int × rpm_clk × Rpm :=
  let this_khz := r.last_set_khz
  -- Don't send requests to the RPM if the rate has not been set.
  if this_khz = 0 then rpm_clk_enable_out 0 r w
  else
    let this_sleep_khz := r.last_set_sleep_khz
    -- Take peer clock's rate into account only if it's enabled.
    let peer_khz := if peer.enabled then peer.last_set_khz else 0
    let peer_sleep_khz := if peer.enabled then peer.last_set_sleep_khz else 0
    let value0 := if r.branch then notnot (max this_khz peer_khz) else max this_khz peer_khz
    let s0 := msm_rpmrs_set_noirq env w RpmCtx.MSM_RPM_CTX_SET_0 r.rpm_clk_id value0
    if s0.1 ≠ 0 then rpm_clk_enable_out s0.1 r s0.2
    else
      let value1 := if r.branch then notnot (max this_sleep_khz peer_sleep_khz)
                    else max this_sleep_khz peer_sleep_khz
      let s1 := msm_rpmrs_set_noirq env s0.2 RpmCtx.MSM_RPM_CTX_SET_SLEEP r.rpm_clk_id value1
      if s1.1 ≠ 0 then
        let s2 := msm_rpmrs_set_noirq env s1.2 RpmCtx.MSM_RPM_CTX_SET_0 r.rpm_clk_id peer_khz
        rpm_clk_enable_out s1.1 r s2.2
      else rpm_clk_enable_out s1.1 r s1.2

/-- The function `rpm_clk_disable` of the source. It returns nothing; the
result is the new record of the handle and the new remote log. -/
def rpm_clk_disable (env : RpmEnv) (r peer : rpm_clk) (w : Rpm) : rpm_clk × Rpm :=
  if r.last_set_khz ≠ 0 then
    -- Take peer clock's rate into account only if it's enabled.
    let peer_khz := if peer.enabled then peer.last_set_khz else 0
    let peer_sleep_khz := if peer.enabled then peer.last_set_sleep_khz else 0
    let value0 := if r.branch then notnot peer_khz else peer_khz
    let s0 := msm_rpmrs_set_noirq env w RpmCtx.MSM_RPM_CTX_SET_0 r.rpm_clk_id value0
    if s0.1 ≠ 0 then
      -- goto out: the assignment to `enabled` is skipped
      (r, s0.2)
    else
      let value1 := if r.branch then notnot peer_sleep_khz else peer_sleep_khz
      let s1 := msm_rpmrs_set_noirq env s0.2 RpmCtx.MSM_RPM_CTX_SET_SLEEP r.rpm_clk_id value1
      ({ r with enabled := false }, s1.2)
  else ({ r with enabled := false }, w)

/-- The function `rpm_clk_set_rate` of the source. -/
def rpm_clk_set_rate (env : RpmEnv) (r peer : rpm_clk) (w : Rpm) (rate : Nat) :
    Int × rpm_clk × Rpm :=
  let this_khz := DIV_ROUND_UP rate 1000
  -- Ignore duplicate requests.
  if r.last_set_khz = this_khz then (0, r, w)
  else
    -- Active-only clocks vote for zero during sleep.
    let this_sleep_khz := if r.active_only then 0 else this_khz
    if r.enabled then
      -- Take peer clock's rate into account only if it's enabled.
      let peer_khz := if peer.enabled then peer.last_set_khz else 0
      let peer_sleep_khz := if peer.enabled then peer.last_set_sleep_khz else 0
      let s0 := msm_rpmrs_set_noirq env w RpmCtx.MSM_RPM_CTX_SET_0 r.rpm_clk_id
                  (max this_khz peer_khz)
      if s0.1 ≠ 0 then (s0.1, r, s0.2)
      else
        let s1 := msm_rpmrs_set_noirq env s0.2 RpmCtx.MSM_RPM_CTX_SET_SLEEP r.rpm_clk_id
                    (max this_sleep_khz peer_sleep_khz)
        if s1.1 = 0 then
          (s1.1, { r with last_set_khz := this_khz, last_set_sleep_khz := this_sleep_khz }, s1.2)
        else (s1.1, r, s1.2)
    else
      (0, { r with last_set_khz := this_khz, last_set_sleep_khz := this_sleep_khz }, w)

/-- A collaborator whose every remote set call succeeds. -/
def envOk : RpmEnv := fun _ _ _ _ => 0

/-- A collaborator whose every remote set call fails with `-EIO`. -/
def envFail : RpmEnv := fun _ _ _ _ => -5

/-- A collaborator whose active-context calls succeed and whose sleep-context
calls fail with `-EIO`. -/
def envSleepFail : RpmEnv := fun _ ctx _ _ =>
  match ctx with
  | RpmCtx.MSM_RPM_CTX_SET_0 => 0
  | RpmCtx.MSM_RPM_CTX_SET_SLEEP => -5

/-- A tunable handle with the given caches and enabled flag (resource id 7,
status id 8, not active-only, published rate 0). -/
def mkClk (khz sleep_khz : Nat) (en : Bool) : rpm_clk :=
  { rpm_clk_id := 7, rpm_status_id := 8, active_only := false,
    last_set_khz := khz, last_set_sleep_khz := sleep_khz,
    enabled := en, branch := false, rate := 0 }

/-- A branch handle with the given caches and enabled flag. -/
def mkBranch (khz sleep_khz : Nat) (en : Bool) : rpm_clk :=
  { mkClk khz sleep_khz en with branch := true }

/-- The remote log before any call. -/
def rpm0 : Rpm := { log := [] }

/-- A record of a remote set call to the active context. -/
def setActive (iv_id iv_value : Nat) (rc : Int) : RpmSet :=
  { ctx := RpmCtx.MSM_RPM_CTX_SET_0, iv_id := iv_id, iv_value := iv_value, rc := rc }

/-- A record of a remote set call to the sleep context. -/
def setSleep (iv_id iv_value : Nat) (rc : Int) : RpmSet :=
  { ctx := RpmCtx.MSM_RPM_CTX_SET_SLEEP, iv_id := iv_id, iv_value := iv_value, rc := rc }

/-- The peer's active requirement seen by an operation: its cached rate if it
is enabled, 0 otherwise (`peer_khz` of the source). -/
def peerKhz (peer : rpm_clk) : Nat := if peer.enabled then peer.last_set_khz else 0

/-- The peer's sleep requirement seen by an operation (`peer_sleep_khz`). -/
def peerSleepKhz (peer : rpm_clk) : Nat :=
  if peer.enabled then peer.last_set_sleep_khz else 0

/-- The coercion of a branch handle's vote to 0 or 1; other handles keep the value. -/
def coerce (r : rpm_clk) (v : Nat) : Nat := if r.branch then notnot v else v

/-- The remote vote for a context as the claims define it: the last value
transmitted for that context, or 0 if none was. -/
def remote_vote (w : Rpm) (ctx : RpmCtx) : Nat :=
  w.log.foldl (fun v c => if c.ctx = ctx then c.iv_value else v) 0

/-- The code of the first failing remote set call among those issued between
the remote states `w` and `w1`, if there is one. -/
def firstFailure (w w1 : Rpm) : Option Int :=
  ((w1.log.drop w.log.length).find? (fun c => decide (c.rc ≠ 0))).map (fun c => c.rc)

/-- The number of remote set calls for context `ctx` issued between the
remote states `w` and `w1`. -/
def transmissions (w w1 : Rpm) (ctx : RpmCtx) : Nat :=
  (w1.log.drop w.log.length).countP (fun c => decide (c.ctx = ctx))

/-- Two peer handles and the remote side: `a.peer = b` and `b.peer = a`. -/
structure RpmSys where
  a : rpm_clk
  b : rpm_clk
  rpm : Rpm
  deriving DecidableEq, Repr

/-- Which of the two peer handles an operation is called on. -/
inductive Handle where
  | A
  | B
  deriving DecidableEq, Repr

/-- The operations whose sequences the aggregation claims range over;
`set_rate` carries the requested rate in Hz. -/
inductive ClkOp where
  | enable
  | disable
  | set_rate (rate : Nat)
  deriving DecidableEq, Repr

/-- One call of an operation on one of the two handles: the handle's record
and the remote log are replaced by the operation's result (the returned code
is dropped), and the peer's record is passed unchanged. -/
def RpmSys.step (env : RpmEnv) (s : RpmSys) (c : Handle × ClkOp) : RpmSys :=
  match c with
  | (Handle.A, ClkOp.enable) =>
      { s with a := (rpm_clk_enable env s.a s.b s.rpm).2.1,
               rpm := (rpm_clk_enable env s.a s.b s.rpm).2.2 }
  | (Handle.A, ClkOp.disable) =>
      { s with a := (rpm_clk_disable env s.a s.b s.rpm).1,
               rpm := (rpm_clk_disable env s.a s.b s.rpm).2 }
  | (Handle.A, ClkOp.set_rate rate) =>
      { s with a := (rpm_clk_set_rate env s.a s.b s.rpm rate).2.1,
               rpm := (rpm_clk_set_rate env s.a s.b s.rpm rate).2.2 }
  | (Handle.B, ClkOp.enable) =>
      { s with b := (rpm_clk_enable env s.b s.a s.rpm).2.1,
               rpm := (rpm_clk_enable env s.b s.a s.rpm).2.2 }
  | (Handle.B, ClkOp.disable) =>
      { s with b := (rpm_clk_disable env s.b s.a s.rpm).1,
               rpm := (rpm_clk_disable env s.b s.a s.rpm).2 }
  | (Handle.B, ClkOp.set_rate rate) =>
      { s with b := (rpm_clk_set_rate env s.b s.a s.rpm rate).2.1,
               rpm := (rpm_clk_set_rate env s.b s.a s.rpm rate).2.2 }

/-- A finite sequence of calls, performed one after the other. -/
def RpmSys.run (env : RpmEnv) (s : RpmSys) (calls : List (Handle × ClkOp)) : RpmSys :=
  calls.foldl (RpmSys.step env) s

/-- The vote a handle currently contributes to the active context. -/
def effKhz (r : rpm_clk) : Nat := if r.enabled then r.last_set_khz else 0

/-- The vote a handle currently contributes to the sleep context. -/
def effSleepKhz (r : rpm_clk) : Nat := if r.enabled then r.last_set_sleep_khz else 0

/-- The invariant behind the peer aggregation claim: both handles are tunable,
a zero active cache comes with a zero sleep cache, and the remote vote of each
context is the maximum of what the two handles currently contribute. -/
def AggInv (s : RpmSys) : Prop :=
  s.a.branch = false ∧ s.b.branch = false ∧
  (s.a.last_set_khz = 0 → s.a.last_set_sleep_khz = 0) ∧
  (s.b.last_set_khz = 0 → s.b.last_set_sleep_khz = 0) ∧
  remote_vote s.rpm RpmCtx.MSM_RPM_CTX_SET_0 = max (effKhz s.a) (effKhz s.b) ∧
  remote_vote s.rpm RpmCtx.MSM_RPM_CTX_SET_SLEEP = max (effSleepKhz s.a) (effSleepKhz s.b)

/-- The aggregation invariant seen from one handle: the handle is tunable, a
zero active cache comes with a zero sleep cache, and the remote vote of each
context is the maximum of what the handle and its peer currently contribute. -/
def HInv (r peer : rpm_clk) (w : Rpm) : Prop :=
  r.branch = false ∧
  (r.last_set_khz = 0 → r.last_set_sleep_khz = 0) ∧
  remote_vote w RpmCtx.MSM_RPM_CTX_SET_0 = max (effKhz r) (effKhz peer) ∧
  remote_vote w RpmCtx.MSM_RPM_CTX_SET_SLEEP = max (effSleepKhz r) (effSleepKhz peer)

/-- The calls of the spec scenario: SetRate(A, 1 MHz), Enable(A), Enable(B),
SetRate(B, 2 MHz), Enable(B), Disable(A). -/
def scenario : List (Handle × ClkOp) :=
  [(Handle.A, ClkOp.set_rate 1000000), (Handle.A, ClkOp.enable), (Handle.B, ClkOp.enable),
   (Handle.B, ClkOp.set_rate 2000000), (Handle.B, ClkOp.enable), (Handle.A, ClkOp.disable)]

/-- The two peers of the spec scenario, both disabled with unset rate, and an
empty remote log. -/
def sys0 : RpmSys := { a := mkClk 0 0 false, b := mkClk 0 0 false, rpm := rpm0 }

/-- Conversion of a C `int` to `unsigned long`: reduction modulo `2 ^ 32`. -/
def ulong_of_int (rc : Int) : Nat := (rc % (ULONG_MOD : Int)).toNat

/-- Conversion of an `unsigned long` to `long`: values from `2 ^ 31` on become
negative. -/
def long_of_ulong (x : Nat) : Int :=
  if x % ULONG_MOD < ULONG_MOD / 2 then ((x % ULONG_MOD : Nat) : Int)
  else ((x % ULONG_MOD : Nat) : Int) - (ULONG_MOD : Int)

/-- Behaviour of the collaborator for a status query: for a status id, the
code returned and the value stored into `iv.value` (meaningful only when the
code is not negative). -/
abbrev RpmStatusEnv := Nat → Int × Nat

/-- Modelled from the spec: `msm_rpm_get_status` is declared in a header that
is not part of the sources at hand. The spec gives its contract as
`remoteGetStatus(resourceId) -> value|failure`; the call returns the
collaborator's code and the reported value. -/
def msm_rpm_get_status (status : RpmStatusEnv) (iv_id : Nat) : Int × Nat := status iv_id

/-- Modelled from the spec: `enum handoff` is declared in `clock.h`, which is
not part of the sources at hand; the spec names the two results of Handoff as
`EnabledClock|DisabledClock`, the source as below. -/
inductive handoff where
  | HANDOFF_ENABLED_CLK
  | HANDOFF_DISABLED_CLK
  deriving DecidableEq, Repr

/-- The function `rpm_clk_get_rate` of the source. A negative code is returned
converted to `unsigned long`; the product `iv.value * 1000` is computed in
32-bit unsigned arithmetic. -/
def rpm_clk_get_rate (status : RpmStatusEnv) (r : rpm_clk) : Nat :=
  let q := msm_rpm_get_status status r.rpm_status_id
  if q.1 < 0 then ulong_of_int q.1 else (q.2 * 1000) % ULONG_MOD

/-- The function `rpm_clk_is_enabled` of the source: `!!(rpm_clk_get_rate(clk))`. -/
def rpm_clk_is_enabled (status : RpmStatusEnv) (r : rpm_clk) : Int :=
  if rpm_clk_get_rate status r = 0 then 0 else 1

/-- The function `rpm_clk_round_rate` of the source: the rate is returned as a
`long`. -/
def rpm_clk_round_rate (_r : rpm_clk) (rate : Nat) : Int := long_of_ulong rate

/-- The function `rpm_clk_is_local` of the source. -/
def rpm_clk_is_local (_r : rpm_clk) : Bool := false

/-- The function `rpm_clk_handoff` of the source. -/
def rpm_clk_handoff (status : RpmStatusEnv) (r : rpm_clk) : handoff × rpm_clk :=
  let q := msm_rpm_get_status status r.rpm_status_id
  if q.1 < 0 then (handoff.HANDOFF_DISABLED_CLK, r)
  else if r.branch = false then
    (handoff.HANDOFF_ENABLED_CLK,
     { r with last_set_khz := q.2,
              last_set_sleep_khz := if r.active_only = false then q.2 else r.last_set_sleep_khz,
              rate := (q.2 * 1000) % ULONG_MOD })
  else (handoff.HANDOFF_ENABLED_CLK, r)

/-- The eight operations of the operation table `clk_ops_rpm`; `set_rate` and
`round_rate` carry the requested rate in Hz. -/
inductive AnyOp where
  | enable
  | disable
  | set_rate (rate : Nat)
  | get_rate
  | is_enabled
  | round_rate (rate : Nat)
  | is_local
  | handoff
  deriving DecidableEq, Repr

/-- One call of an operation: the handle it is called on, the operation, and
what a status query answers while the call runs. -/
structure ClkCall where
  h : Handle
  op : AnyOp
  status : RpmStatusEnv

/-- The record of a handle of the pair. -/
def RpmSys.handle (s : RpmSys) (h : Handle) : rpm_clk :=
  match h with
  | Handle.A => s.a
  | Handle.B => s.b

/-- The record of the peer of a handle of the pair. -/
def RpmSys.peerOf (s : RpmSys) (h : Handle) : rpm_clk :=
  match h with
  | Handle.A => s.b
  | Handle.B => s.a

/-- The effect of one operation on the record of its handle and on the remote
log; the value the operation returns is dropped. The operations `get_rate`,
`is_enabled`, `round_rate` and `is_local` only compute a value. -/
def applyOp (env : RpmEnv) (status : RpmStatusEnv) (op : AnyOp) (r peer : rpm_clk) (w : Rpm) :
    rpm_clk × Rpm :=
  match op with
  | AnyOp.enable => ((rpm_clk_enable env r peer w).2.1, (rpm_clk_enable env r peer w).2.2)
  | AnyOp.disable => rpm_clk_disable env r peer w
  | AnyOp.set_rate rate =>
      ((rpm_clk_set_rate env r peer w rate).2.1, (rpm_clk_set_rate env r peer w rate).2.2)
  | AnyOp.get_rate => (r, w)
  | AnyOp.is_enabled => (r, w)
  | AnyOp.round_rate _ => (r, w)
  | AnyOp.is_local => (r, w)
  | AnyOp.handoff => ((rpm_clk_handoff status r).2, w)

/-- One call on the pair: the record of the handle and the remote log are
replaced by the result of the operation. -/
def RpmSys.stepAll (env : RpmEnv) (s : RpmSys) (c : ClkCall) : RpmSys :=
  match c.h with
  | Handle.A =>
      { s with a := (applyOp env c.status c.op s.a s.b s.rpm).1,
               rpm := (applyOp env c.status c.op s.a s.b s.rpm).2 }
  | Handle.B =>
      { s with b := (applyOp env c.status c.op s.b s.a s.rpm).1,
               rpm := (applyOp env c.status c.op s.b s.a s.rpm).2 }

/-- A finite sequence of calls of any of the operations. -/
def RpmSys.runAll (env : RpmEnv) (s : RpmSys) (calls : List ClkCall) : RpmSys :=
  calls.foldl (RpmSys.stepAll env) s

/-- The remote set calls issued by the operations called on handle `h` during
a sequence of calls, oldest first. -/
def issuedBy (env : RpmEnv) (h : Handle) : RpmSys → List ClkCall → List RpmSet
  | _, [] => []
  | s, c :: cs =>
      (if c.h = h then (RpmSys.stepAll env s c).rpm.log.drop s.rpm.log.length else []) ++
        issuedBy env h (RpmSys.stepAll env s c) cs

/-- A status query that succeeds with value `v`. -/
def statusOk (v : Nat) : RpmStatusEnv := fun _ => (0, v)

/-- A status query that fails with code `rc`. -/
def statusFail (rc : Int) : RpmStatusEnv := fun _ => (rc, 0)

/-- A call of an operation during which a status query would report 0. -/
def callOn (h : Handle) (op : AnyOp) : ClkCall := { h := h, op := op, status := statusOk 0 }

/-- A handoff call during which the status query reports `v`. -/
def handoffOn (h : Handle) (v : Nat) : ClkCall :=
  { h := h, op := AnyOp.handoff, status := statusOk v }

/-- A pair whose handle A is active-only with unset rate, next to an enabled
peer cached at 3000/3000. -/
def sysActiveOnly : RpmSys :=
  { a := { mkClk 0 0 false with active_only := true }, b := mkClk 3000 3000 true, rpm := rpm0 }

/-- Calls on the pair `sysActiveOnly`: Handoff(A) reporting 5000, Enable(A),
SetRate(A, 2 MHz), SetRate(B, 4 MHz). -/
def callsActiveOnly : List ClkCall :=
  [handoffOn Handle.A 5000, callOn Handle.A AnyOp.enable,
   callOn Handle.A (AnyOp.set_rate 2000000), callOn Handle.B (AnyOp.set_rate 4000000)]

/-- Calls on A that set a rate, enable and then request rate 0. -/
def callsResetToZero : List ClkCall :=
  [callOn Handle.A (AnyOp.set_rate 1000000), callOn Handle.A AnyOp.enable,
   callOn Handle.A (AnyOp.set_rate 0)]

/-- Calls on A that enable it with unset rate and then request 1 MHz. -/
def callsEnableThenRate : List ClkCall :=
  [callOn Handle.A AnyOp.enable, callOn Handle.A (AnyOp.set_rate 1000000)]

/-- Calls on A that leave the rate unset: Enable, GetRate, SetRate(0), Disable. -/
def callsUnset : List ClkCall :=
  [callOn Handle.A AnyOp.enable, callOn Handle.A AnyOp.get_rate,
   callOn Handle.A (AnyOp.set_rate 0), callOn Handle.B (AnyOp.set_rate 1000000),
   callOn Handle.A AnyOp.disable]

/-- The steps of an execution that matter for the locking discipline, in
program order: taking and releasing `rpm_clock_lock`, reading the peer,
a remote set call, a status query, and the writes to the fields of the handle
(`write_rate` is the write to `clk->rate`). -/
inductive Ev where
  | spin_lock_irqsave
  | spin_unlock_irqrestore
  | read_peer
  | rpm_set (ctx : RpmCtx) (value : Nat)
  | get_status
  | write_enabled (b : Bool)
  | write_last_set_khz (v : Nat)
  | write_last_set_sleep_khz (v : Nat)
  | write_rate (v : Nat)
  deriving DecidableEq, Repr

/-- The steps after the label `out:` of `rpm_clk_enable`. -/
def rpm_clk_enable_out_events (rc : Int) : List Ev :=
  (if rc = 0 then [Ev.write_enabled true] else []) ++ [Ev.spin_unlock_irqrestore]

/-- The steps of `rpm_clk_enable`, line by line as in the source. -/
def rpm_clk_enable_events (env : RpmEnv) (r peer : rpm_clk) (w : Rpm) : List Ev :=
  Ev.spin_lock_irqsave ::
  (let this_khz := r.last_set_khz
   if this_khz = 0 then rpm_clk_enable_out_events 0
   else
     let this_sleep_khz := r.last_set_sleep_khz
     let peer_khz := if peer.enabled then peer.last_set_khz else 0
     let peer_sleep_khz := if peer.enabled then peer.last_set_sleep_khz else 0
     let value0 := if r.branch then notnot (max this_khz peer_khz) else max this_khz peer_khz
     let s0 := msm_rpmrs_set_noirq env w RpmCtx.MSM_RPM_CTX_SET_0 r.rpm_clk_id value0
     Ev.read_peer :: Ev.rpm_set RpmCtx.MSM_RPM_CTX_SET_0 value0 ::
     (if s0.1 ≠ 0 then rpm_clk_enable_out_events s0.1
      else
        let value1 := if r.branch then notnot (max this_sleep_khz peer_sleep_khz)
                      else max this_sleep_khz peer_sleep_khz
        let s1 := msm_rpmrs_set_noirq env s0.2 RpmCtx.MSM_RPM_CTX_SET_SLEEP r.rpm_clk_id value1
        Ev.rpm_set RpmCtx.MSM_RPM_CTX_SET_SLEEP value1 ::
        (if s1.1 ≠ 0 then
           Ev.rpm_set RpmCtx.MSM_RPM_CTX_SET_0 peer_khz :: rpm_clk_enable_out_events s1.1
         else rpm_clk_enable_out_events s1.1)))

/-- The steps of `rpm_clk_disable`, line by line as in the source. -/
def rpm_clk_disable_events (env : RpmEnv) (r peer : rpm_clk) (w : Rpm) : List Ev :=
  Ev.spin_lock_irqsave ::
  (if r.last_set_khz ≠ 0 then
     let peer_khz := if peer.enabled then peer.last_set_khz else 0
     let peer_sleep_khz := if peer.enabled then peer.last_set_sleep_khz else 0
     let value0 := if r.branch then notnot peer_khz else peer_khz
     let s0 := msm_rpmrs_set_noirq env w RpmCtx.MSM_RPM_CTX_SET_0 r.rpm_clk_id value0
     Ev.read_peer :: Ev.rpm_set RpmCtx.MSM_RPM_CTX_SET_0 value0 ::
     (if s0.1 ≠ 0 then [Ev.spin_unlock_irqrestore]
      else
        let value1 := if r.branch then notnot peer_sleep_khz else peer_sleep_khz
        [Ev.rpm_set RpmCtx.MSM_RPM_CTX_SET_SLEEP value1, Ev.write_enabled false,
         Ev.spin_unlock_irqrestore])
   else [Ev.write_enabled false, Ev.spin_unlock_irqrestore])

/-- The steps of `rpm_clk_set_rate`, line by line as in the source. -/
def rpm_clk_set_rate_events (env : RpmEnv) (r peer : rpm_clk) (w : Rpm) (rate : Nat) :
    List Ev :=
  let this_khz := DIV_ROUND_UP rate 1000
  Ev.spin_lock_irqsave ::
  (if r.last_set_khz = this_khz then [Ev.spin_unlock_irqrestore]
   else
     let this_sleep_khz := if r.active_only then 0 else this_khz
     if r.enabled then
       let peer_khz := if peer.enabled then peer.last_set_khz else 0
       let peer_sleep_khz := if peer.enabled then peer.last_set_sleep_khz else 0
       let s0 := msm_rpmrs_set_noirq env w RpmCtx.MSM_RPM_CTX_SET_0 r.rpm_clk_id
                   (max this_khz peer_khz)
       Ev.read_peer :: Ev.rpm_set RpmCtx.MSM_RPM_CTX_SET_0 (max this_khz peer_khz) ::
       (if s0.1 ≠ 0 then [Ev.spin_unlock_irqrestore]
        else
          let s1 := msm_rpmrs_set_noirq env s0.2 RpmCtx.MSM_RPM_CTX_SET_SLEEP r.rpm_clk_id
                      (max this_sleep_khz peer_sleep_khz)
          Ev.rpm_set RpmCtx.MSM_RPM_CTX_SET_SLEEP (max this_sleep_khz peer_sleep_khz) ::
          (if s1.1 = 0 then
             [Ev.write_last_set_khz this_khz, Ev.write_last_set_sleep_khz this_sleep_khz,
              Ev.spin_unlock_irqrestore]
           else [Ev.spin_unlock_irqrestore]))
     else
       [Ev.write_last_set_khz this_khz, Ev.write_last_set_sleep_khz this_sleep_khz,
        Ev.spin_unlock_irqrestore])

/-- The steps of `rpm_clk_handoff`, line by line as in the source. -/
def rpm_clk_handoff_events (status : RpmStatusEnv) (r : rpm_clk) : List Ev :=
  let q := msm_rpm_get_status status r.rpm_status_id
  Ev.get_status ::
  (if q.1 < 0 then []
   else if r.branch = false then
     Ev.write_last_set_khz q.2 ::
     ((if r.active_only = false then [Ev.write_last_set_sleep_khz q.2] else []) ++
      [Ev.write_rate ((q.2 * 1000) % ULONG_MOD)])
   else [])

/-- The record of a handle after the writes among the given steps. -/
def replay (r : rpm_clk) : List Ev → rpm_clk
  | [] => r
  | Ev.write_enabled b :: t => replay { r with enabled := b } t
  | Ev.write_last_set_khz v :: t => replay { r with last_set_khz := v } t
  | Ev.write_last_set_sleep_khz v :: t => replay { r with last_set_sleep_khz := v } t
  | Ev.write_rate v :: t => replay { r with rate := v } t
  | _ :: t => replay r t

/-- The context and value of the remote set calls among the given steps. -/
def sentOf : List Ev → List (RpmCtx × Nat)
  | [] => []
  | Ev.rpm_set ctx v :: t => (ctx, v) :: sentOf t
  | _ :: t => sentOf t

/-- The locking discipline on a sequence of steps, starting with the lock held
or not: the lock is taken only when free and released only when held, it is
free at the end, and every read of the peer, every remote set call and every
write to `enabled`, `last_set_khz` or `last_set_sleep_khz` happens while it
is held. -/
def underLock : Bool → List Ev → Bool
  | held, [] => !held
  | held, Ev.spin_lock_irqsave :: t => !held && underLock true t
  | held, Ev.spin_unlock_irqrestore :: t => held && underLock false t
  | held, Ev.read_peer :: t => held && underLock held t
  | held, Ev.rpm_set _ _ :: t => held && underLock held t
  | held, Ev.write_enabled _ :: t => held && underLock held t
  | held, Ev.write_last_set_khz _ :: t => held && underLock held t
  | held, Ev.write_last_set_sleep_khz _ :: t => held && underLock held t
  | held, Ev.get_status :: t => underLock held t
  | held, Ev.write_rate _ :: t => underLock held t

/-- The operation table `clk_ops_rpm_branch` of the source: the operations it
has an entry for. -/
def clk_ops_rpm_branch (op : AnyOp) : Bool :=
  match op with
  | AnyOp.enable => true
  | AnyOp.disable => true
  | AnyOp.is_local => true
  | AnyOp.handoff => true
  | _ => false

/-- The operation table `clk_ops_rpm` of the source: it has an entry for every
one of the eight operations. -/
def clk_ops_rpm (_op : AnyOp) : Bool := true

/-- Modelled from the spec: which operation table a handle is registered with
is decided where the handles are defined (`clock-rpm.h`), which is not part of
the sources at hand. The spec gives the full table to tunable clocks and the
branch table to on/off gates, so an operation can be called on a handle when
the table of the handle has an entry for it. -/
def dispatchable (r : rpm_clk) (op : AnyOp) : Bool :=
  if r.branch then clk_ops_rpm_branch op else clk_ops_rpm op

/-- The steps of a call of one of the three operations that take the lock. -/
def clkOpEvents (env : RpmEnv) (op : ClkOp) (r peer : rpm_clk) (w : Rpm) : List Ev :=
  match op with
  | ClkOp.enable => rpm_clk_enable_events env r peer w
  | ClkOp.disable => rpm_clk_disable_events env r peer w
  | ClkOp.set_rate rate => rpm_clk_set_rate_events env r peer w rate

/-- The steps of an operation, each marked with the handle the operation runs
on. -/
def tagSteps (h : Handle) (t : List Ev) : List (Handle × Ev) := t.map (fun e => (h, e))

/-- The steps that the operation running on handle `h` contributes to a run
of two operations running concurrently on the two peer handles, in order. -/
def stepsOf (h : Handle) (m : List (Handle × Ev)) : List Ev :=
  (m.filter (fun x => decide (x.1 = h))).map (fun x => x.2)

/-- Modelled from the spec: `spin_lock_irqsave` and `spin_unlock_irqrestore`
are kernel primitives that are not part of the sources at hand. The spec calls
`rpm_clock_lock` a single process-wide mutual-exclusion lock: in a run of
concurrent operations the lock is taken only when no operation holds it and
released only by the operation that holds it. The first argument is the
holder of the lock, if any. -/
def lockAdmits : Option Handle → List (Handle × Ev) → Bool
  | _, [] => true
  | owner, (h, e) :: t =>
      if e = Ev.spin_lock_irqsave then owner.isNone && lockAdmits (some h) t
      else if e = Ev.spin_unlock_irqrestore then decide (owner = some h) && lockAdmits none t
      else lockAdmits owner t

/-- The remaining steps of an operation that holds the lock end with the
release of the lock, and release it nowhere before the end. -/
def closes : List Ev → Bool
  | [] => false
  | e :: t => if e = Ev.spin_unlock_irqrestore then t.isEmpty else closes t

/-- The steps of an operation start by taking the lock and end by releasing
it, with no release in between. -/
def bracketed : List Ev → Bool
  | [] => false
  | e :: t => decide (e = Ev.spin_lock_irqsave) && closes t

/-- A run in which Handoff on B, reporting 5000 kHz, falls between the steps
of Enable on A (cached at 1000/1000, peer enabled with unset rate): A reads
the caches of B, B adopts 5000, and A then transmits the maximum it computed
from the old caches. -/
def raceEnableHandoff : List (Handle × Ev) :=
  [(Handle.A, Ev.spin_lock_irqsave), (Handle.A, Ev.read_peer),
   (Handle.B, Ev.get_status), (Handle.B, Ev.write_last_set_khz 5000),
   (Handle.B, Ev.write_last_set_sleep_khz 5000), (Handle.B, Ev.write_rate 5000000),
   (Handle.A, Ev.rpm_set RpmCtx.MSM_RPM_CTX_SET_0 1000),
   (Handle.A, Ev.rpm_set RpmCtx.MSM_RPM_CTX_SET_SLEEP 1000),
   (Handle.A, Ev.write_enabled true), (Handle.A, Ev.spin_unlock_irqrestore)]

/-- A `struct rpm_clk` object in memory: its fields and its `peer` pointer. A
pointer to one of the two objects of a pair is a `Handle`. -/
structure RpmClkObj where
  f : rpm_clk
  peer : Handle
  deriving DecidableEq, Repr

/-- The memory that holds the two `struct rpm_clk` objects of a pair. -/
structure ClkMem where
  objA : RpmClkObj
  objB : RpmClkObj
  deriving DecidableEq, Repr

/-- The object a pointer points to. -/
def ClkMem.load (m : ClkMem) (p : Handle) : RpmClkObj :=
  match p with
  | Handle.A => m.objA
  | Handle.B => m.objB

/-- The memory after the object behind a pointer is replaced. -/
def ClkMem.store (m : ClkMem) (p : Handle) (o : RpmClkObj) : ClkMem :=
  match p with
  | Handle.A => { m with objA := o }
  | Handle.B => { m with objB := o }

/-- The assignment `p->enabled = b`. -/
def ClkMem.set_enabled (m : ClkMem) (p : Handle) (b : Bool) : ClkMem :=
  m.store p { m.load p with f := { (m.load p).f with enabled := b } }

/-- The assignment `p->last_set_khz = v`. -/
def ClkMem.set_last_set_khz (m : ClkMem) (p : Handle) (v : Nat) : ClkMem :=
  m.store p { m.load p with f := { (m.load p).f with last_set_khz := v } }

/-- The assignment `p->last_set_sleep_khz = v`. -/
def ClkMem.set_last_set_sleep_khz (m : ClkMem) (p : Handle) (v : Nat) : ClkMem :=
  m.store p { m.load p with f := { (m.load p).f with last_set_sleep_khz := v } }

/-- The assignment `p->c.rate = v` (`clk->rate` of the source). -/
def ClkMem.set_rate (m : ClkMem) (p : Handle) (v : Nat) : ClkMem :=
  m.store p { m.load p with f := { (m.load p).f with rate := v } }

/-- The code after the label `out:` of `rpm_clk_enable`, on the memory. -/
def rpm_clk_enable_out_mem (rc : Int) (m : ClkMem) (r : Handle) (w : Rpm) :
    Int × ClkMem × Rpm :=
  (rc, if rc = 0 then m.set_enabled r true else m, w)

/-- The function `rpm_clk_enable` of the source on the memory of the pair:
every access goes through the pointer `r` or the pointer `peer = r->peer`. -/
def rpm_clk_enable_mem (env : RpmEnv) (m : ClkMem) (clk : Handle) (w : Rpm) :
    Int × ClkMem × Rpm :=
  let r := clk
  let peer := (m.load r).peer
  let this_khz := (m.load r).f.last_set_khz
  if this_khz = 0 then rpm_clk_enable_out_mem 0 m r w
  else
    let this_sleep_khz := (m.load r).f.last_set_sleep_khz
    let peer_khz := if (m.load peer).f.enabled then (m.load peer).f.last_set_khz else 0
    let peer_sleep_khz :=
      if (m.load peer).f.enabled then (m.load peer).f.last_set_sleep_khz else 0
    let value0 := if (m.load r).f.branch then notnot (max this_khz peer_khz)
                  else max this_khz peer_khz
    let s0 := msm_rpmrs_set_noirq env w RpmCtx.MSM_RPM_CTX_SET_0 (m.load r).f.rpm_clk_id value0
    if s0.1 ≠ 0 then rpm_clk_enable_out_mem s0.1 m r s0.2
    else
      let value1 := if (m.load r).f.branch then notnot (max this_sleep_khz peer_sleep_khz)
                    else max this_sleep_khz peer_sleep_khz
      let s1 := msm_rpmrs_set_noirq env s0.2 RpmCtx.MSM_RPM_CTX_SET_SLEEP
                  (m.load r).f.rpm_clk_id value1
      if s1.1 ≠ 0 then
        let s2 := msm_rpmrs_set_noirq env s1.2 RpmCtx.MSM_RPM_CTX_SET_0
                    (m.load r).f.rpm_clk_id peer_khz
        rpm_clk_enable_out_mem s1.1 m r s2.2
      else rpm_clk_enable_out_mem s1.1 m r s1.2

/-- The function `rpm_clk_disable` of the source on the memory of the pair. -/
def rpm_clk_disable_mem (env : RpmEnv) (m : ClkMem) (clk : Handle) (w : Rpm) :
    ClkMem × Rpm :=
  let r := clk
  if (m.load r).f.last_set_khz ≠ 0 then
    let peer := (m.load r).peer
    let peer_khz := if (m.load peer).f.enabled then (m.load peer).f.last_set_khz else 0
    let peer_sleep_khz :=
      if (m.load peer).f.enabled then (m.load peer).f.last_set_sleep_khz else 0
    let value0 := if (m.load r).f.branch then notnot peer_khz else peer_khz
    let s0 := msm_rpmrs_set_noirq env w RpmCtx.MSM_RPM_CTX_SET_0 (m.load r).f.rpm_clk_id value0
    if s0.1 ≠ 0 then (m, s0.2)
    else
      let value1 := if (m.load r).f.branch then notnot peer_sleep_khz else peer_sleep_khz
      let s1 := msm_rpmrs_set_noirq env s0.2 RpmCtx.MSM_RPM_CTX_SET_SLEEP
                  (m.load r).f.rpm_clk_id value1
      (m.set_enabled r false, s1.2)
  else (m.set_enabled r false, w)

/-- The function `rpm_clk_set_rate` of the source on the memory of the pair. -/
def rpm_clk_set_rate_mem (env : RpmEnv) (m : ClkMem) (clk : Handle) (w : Rpm) (rate : Nat) :
    Int × ClkMem × Rpm :=
  let r := clk
  let this_khz := DIV_ROUND_UP rate 1000
  if (m.load r).f.last_set_khz = this_khz then (0, m, w)
  else
    let this_sleep_khz := if (m.load r).f.active_only then 0 else this_khz
    if (m.load r).f.enabled then
      let peer := (m.load r).peer
      let peer_khz := if (m.load peer).f.enabled then (m.load peer).f.last_set_khz else 0
      let peer_sleep_khz :=
        if (m.load peer).f.enabled then (m.load peer).f.last_set_sleep_khz else 0
      let s0 := msm_rpmrs_set_noirq env w RpmCtx.MSM_RPM_CTX_SET_0 (m.load r).f.rpm_clk_id
                  (max this_khz peer_khz)
      if s0.1 ≠ 0 then (s0.1, m, s0.2)
      else
        let s1 := msm_rpmrs_set_noirq env s0.2 RpmCtx.MSM_RPM_CTX_SET_SLEEP
                    (m.load r).f.rpm_clk_id (max this_sleep_khz peer_sleep_khz)
        if s1.1 = 0 then
          (s1.1, (m.set_last_set_khz r this_khz).set_last_set_sleep_khz r this_sleep_khz, s1.2)
        else (s1.1, m, s1.2)
    else
      (0, (m.set_last_set_khz r this_khz).set_last_set_sleep_khz r this_sleep_khz, w)

/-- The function `rpm_clk_handoff` of the source on the memory of the pair. -/
def rpm_clk_handoff_mem (status : RpmStatusEnv) (m : ClkMem) (clk : Handle) :
    handoff × ClkMem :=
  let r := clk
  let q := msm_rpm_get_status status (m.load r).f.rpm_status_id
  if q.1 < 0 then (handoff.HANDOFF_DISABLED_CLK, m)
  else if (m.load r).f.branch = false then
    let m1 := m.set_last_set_khz r q.2
    let m2 := if (m.load r).f.active_only = false then m1.set_last_set_sleep_khz r q.2 else m1
    (handoff.HANDOFF_ENABLED_CLK, m2.set_rate clk ((q.2 * 1000) % ULONG_MOD))
  else (handoff.HANDOFF_ENABLED_CLK, m)

/-- The effect of one operation, called with the pointer `clk`, on the memory
of the pair and on the remote log. The functions `rpm_clk_get_rate`,
`rpm_clk_is_enabled`, `rpm_clk_round_rate` and `rpm_clk_is_local` contain no
assignment to memory. -/
def memOp (env : RpmEnv) (status : RpmStatusEnv) (op : AnyOp) (m : ClkMem) (clk : Handle)
    (w : Rpm) : ClkMem × Rpm :=
  match op with
  | AnyOp.enable => ((rpm_clk_enable_mem env m clk w).2.1, (rpm_clk_enable_mem env m clk w).2.2)
  | AnyOp.disable => rpm_clk_disable_mem env m clk w
  | AnyOp.set_rate rate =>
      ((rpm_clk_set_rate_mem env m clk w rate).2.1, (rpm_clk_set_rate_mem env m clk w rate).2.2)
  | AnyOp.get_rate => (m, w)
  | AnyOp.is_enabled => (m, w)
  | AnyOp.round_rate _ => (m, w)
  | AnyOp.is_local => (m, w)
  | AnyOp.handoff => ((rpm_clk_handoff_mem status m clk).2, w)

/-- A pair in memory: A cached at 1000/1000 and disabled, B cached at
2000/2000 and enabled, each pointing to the other as its peer. -/
def memPair : ClkMem :=
  { objA := { f := mkClk 1000 1000 false, peer := Handle.B },
    objB := { f := mkClk 2000 2000 true, peer := Handle.A } }

/-- C2. Enable, success path: on a handle with a non-zero cached rate, when the
active-context and the sleep-context set calls both return 0, Enable appends
exactly two calls to the remote log, the active one with the coerced maximum
of the own and the peer's active requirement and then the sleep one with the
coerced maximum of the sleep requirements; it returns 0 and only changes the
enabled flag, which becomes true. -/
theorem enable_success (env : RpmEnv) (r peer : rpm_clk) (w : Rpm)
    (hrate : r.last_set_khz ≠ 0)
    (h0 : env w.log RpmCtx.MSM_RPM_CTX_SET_0 r.rpm_clk_id
            (coerce r (max r.last_set_khz (peerKhz peer))) = 0)
    (h1 : env (w.log ++ [setActive r.rpm_clk_id
                 (coerce r (max r.last_set_khz (peerKhz peer))) 0])
            RpmCtx.MSM_RPM_CTX_SET_SLEEP r.rpm_clk_id
            (coerce r (max r.last_set_sleep_khz (peerSleepKhz peer))) = 0) :
    rpm_clk_enable env r peer w =
      (0, { r with enabled := true },
       { log := w.log ++
           [setActive r.rpm_clk_id (coerce r (max r.last_set_khz (peerKhz peer))) 0,
            setSleep r.rpm_clk_id
              (coerce r (max r.last_set_sleep_khz (peerSleepKhz peer))) 0] }) := by
  simp only [coerce, peerKhz, peerSleepKhz, setActive] at h0 h1
  simp [rpm_clk_enable, rpm_clk_enable_out, msm_rpmrs_set_noirq, hrate, h0, h1,
    coerce, peerKhz, peerSleepKhz, setActive, setSleep]

/-- Witness of C2: a handle cached at 1000/1000 whose peer is disabled
transmits Active=1000 and then Sleep=1000. -/
theorem enable_success_witness :
    rpm_clk_enable envOk (mkClk 1000 1000 false) (mkClk 0 0 false) rpm0 =
      (0, mkClk 1000 1000 true, { log := [setActive 7 1000 0, setSleep 7 1000 0] }) :=
  enable_success envOk (mkClk 1000 1000 false) (mkClk 0 0 false) rpm0
    (by decide) (by decide) (by decide)

/-- The remote vote after further calls: the later calls override the vote
reached before them. -/
theorem remote_vote_append (l l1 : List RpmSet) (ctx : RpmCtx) :
    remote_vote { log := l ++ l1 } ctx =
      l1.foldl (fun v c => if c.ctx = ctx then c.iv_value else v) (remote_vote { log := l } ctx) := by
  simp [remote_vote, List.foldl_append]

/-- Enable only appends to the remote log. -/
theorem log_extends_enable (env : RpmEnv) (r peer : rpm_clk) (w : Rpm) :
    ∃ ext, (rpm_clk_enable env r peer w).2.2.log = w.log ++ ext := by
  unfold rpm_clk_enable
  simp only [rpm_clk_enable_out, msm_rpmrs_set_noirq]
  split_ifs
  all_goals first
    | exact ⟨[], (List.append_nil _).symm⟩
    | exact ⟨_, rfl⟩
    | exact ⟨_, List.append_assoc _ _ _⟩
    | exact ⟨_, (List.append_assoc _ _ _).trans (List.append_assoc _ _ _)⟩

/-- Disable only appends to the remote log. -/
theorem log_extends_disable (env : RpmEnv) (r peer : rpm_clk) (w : Rpm) :
    ∃ ext, (rpm_clk_disable env r peer w).2.log = w.log ++ ext := by
  unfold rpm_clk_disable
  simp only [msm_rpmrs_set_noirq]
  split_ifs
  all_goals first
    | exact ⟨[], (List.append_nil _).symm⟩
    | exact ⟨_, rfl⟩
    | exact ⟨_, List.append_assoc _ _ _⟩

/-- SetRate only appends to the remote log. -/
theorem log_extends_set_rate (env : RpmEnv) (r peer : rpm_clk) (w : Rpm) (rate : Nat) :
    ∃ ext, (rpm_clk_set_rate env r peer w rate).2.2.log = w.log ++ ext := by
  unfold rpm_clk_set_rate
  simp only [msm_rpmrs_set_noirq]
  split_ifs
  all_goals first
    | exact ⟨[], (List.append_nil _).symm⟩
    | exact ⟨_, rfl⟩
    | exact ⟨_, List.append_assoc _ _ _⟩

/-- One call on either handle only appends to the remote log. -/
theorem log_extends_step (env : RpmEnv) (s : RpmSys) (c : Handle × ClkOp) :
    ∃ ext, (RpmSys.step env s c).rpm.log = s.rpm.log ++ ext := by
  obtain ⟨h, op⟩ := c
  cases h <;> cases op
  · exact log_extends_enable env s.a s.b s.rpm
  · exact log_extends_disable env s.a s.b s.rpm
  · exact log_extends_set_rate env s.a s.b s.rpm _
  · exact log_extends_enable env s.b s.a s.rpm
  · exact log_extends_disable env s.b s.a s.rpm
  · exact log_extends_set_rate env s.b s.a s.rpm _

/-- A sequence of calls only appends to the remote log. -/
theorem log_extends_run (env : RpmEnv) (calls : List (Handle × ClkOp)) (s : RpmSys) :
    ∃ ext, (RpmSys.run env s calls).rpm.log = s.rpm.log ++ ext := by
  induction calls generalizing s with
  | nil => exact ⟨[], by simp [RpmSys.run]⟩
  | cons c cs ih =>
    obtain ⟨e1, h1⟩ := log_extends_step env s c
    obtain ⟨e2, h2⟩ := ih (RpmSys.step env s c)
    refine ⟨e1 ++ e2, ?_⟩
    simp only [RpmSys.run, List.foldl_cons] at h2 ⊢
    rw [h2, h1, List.append_assoc]

/-- Enable keeps the handle-level aggregation invariant when the remote set
calls it issues succeed. -/
theorem HInv_enable (env : RpmEnv) (r peer : rpm_clk) (w : Rpm) (hs : HInv r peer w)
    (hok : ∀ c ∈ (rpm_clk_enable env r peer w).2.2.log.drop w.log.length, c.rc = 0) :
    HInv (rpm_clk_enable env r peer w).2.1 peer (rpm_clk_enable env r peer w).2.2 := by
  obtain ⟨l⟩ := w
  obtain ⟨hb, hz, hv0, hv1⟩ := hs
  simp only [effKhz, effSleepKhz] at hv0 hv1
  revert hok
  by_cases hk : r.last_set_khz = 0
  · have hs0 := hz hk
    intro _
    simp only [rpm_clk_enable, rpm_clk_enable_out, hk, HInv, effKhz, effSleepKhz]
    simp_all
  · simp only [rpm_clk_enable, hk, hb, if_false, Bool.false_eq_true]
    by_cases h0 : env l RpmCtx.MSM_RPM_CTX_SET_0 r.rpm_clk_id
        (max r.last_set_khz (if peer.enabled = true then peer.last_set_khz else 0)) = 0
    · by_cases h1 : env (l ++ [setActive r.rpm_clk_id
          (max r.last_set_khz (if peer.enabled = true then peer.last_set_khz else 0)) 0])
          RpmCtx.MSM_RPM_CTX_SET_SLEEP r.rpm_clk_id
          (max r.last_set_sleep_khz
            (if peer.enabled = true then peer.last_set_sleep_khz else 0)) = 0
      · simp only [setActive] at h1
        intro _
        simp [rpm_clk_enable_out, msm_rpmrs_set_noirq, h0, h1, hk, hb, HInv, effKhz,
          effSleepKhz, remote_vote_append]
      · simp only [setActive] at h1
        simp [rpm_clk_enable_out, msm_rpmrs_set_noirq, h0, h1]
    · simp [rpm_clk_enable_out, msm_rpmrs_set_noirq, h0]

/-- Disable keeps the handle-level aggregation invariant when the remote set
calls it issues succeed. -/
theorem HInv_disable (env : RpmEnv) (r peer : rpm_clk) (w : Rpm) (hs : HInv r peer w)
    (hok : ∀ c ∈ (rpm_clk_disable env r peer w).2.log.drop w.log.length, c.rc = 0) :
    HInv (rpm_clk_disable env r peer w).1 peer (rpm_clk_disable env r peer w).2 := by
  obtain ⟨l⟩ := w
  obtain ⟨hb, hz, hv0, hv1⟩ := hs
  simp only [effKhz, effSleepKhz] at hv0 hv1
  revert hok
  by_cases hk : r.last_set_khz = 0
  · have hs0 := hz hk
    intro _
    simp only [rpm_clk_disable, hk, HInv, effKhz, effSleepKhz]
    simp_all
  · simp only [rpm_clk_disable, hk, hb, ne_eq, not_false_eq_true, if_true, if_false,
      Bool.false_eq_true]
    by_cases h0 : env l RpmCtx.MSM_RPM_CTX_SET_0 r.rpm_clk_id
        (if peer.enabled = true then peer.last_set_khz else 0) = 0
    · intro _
      simp [msm_rpmrs_set_noirq, h0, hk, hb, HInv, effKhz, effSleepKhz, remote_vote_append]
    · simp [msm_rpmrs_set_noirq, h0]

/-- SetRate keeps the handle-level aggregation invariant when the remote set
calls it issues succeed. -/
theorem HInv_set_rate (env : RpmEnv) (r peer : rpm_clk) (w : Rpm) (rate : Nat)
    (hs : HInv r peer w)
    (hok : ∀ c ∈ (rpm_clk_set_rate env r peer w rate).2.2.log.drop w.log.length, c.rc = 0) :
    HInv (rpm_clk_set_rate env r peer w rate).2.1 peer
      (rpm_clk_set_rate env r peer w rate).2.2 := by
  obtain ⟨l⟩ := w
  obtain ⟨hb, hz, hv0, hv1⟩ := hs
  simp only [effKhz, effSleepKhz] at hv0 hv1
  revert hok
  by_cases hk : r.last_set_khz = DIV_ROUND_UP rate 1000
  · intro _
    simp only [rpm_clk_set_rate, hk, HInv, effKhz, effSleepKhz]
    simp_all
  · cases hen : r.enabled
    · intro _
      simp only [rpm_clk_set_rate, hk, hb, hen, HInv, effKhz, effSleepKhz]
      simp_all
    · simp only [rpm_clk_set_rate, hk, hen, if_false, if_true]
      by_cases h0 : env l RpmCtx.MSM_RPM_CTX_SET_0 r.rpm_clk_id
          (max (DIV_ROUND_UP rate 1000)
            (if peer.enabled = true then peer.last_set_khz else 0)) = 0
      · by_cases h1 : env (l ++ [setActive r.rpm_clk_id
            (max (DIV_ROUND_UP rate 1000)
              (if peer.enabled = true then peer.last_set_khz else 0)) 0])
            RpmCtx.MSM_RPM_CTX_SET_SLEEP r.rpm_clk_id
            (max (if r.active_only = true then 0 else DIV_ROUND_UP rate 1000)
              (if peer.enabled = true then peer.last_set_sleep_khz else 0)) = 0
        · simp only [setActive] at h1
          intro _
          simp [msm_rpmrs_set_noirq, h0, h1, hb, HInv, effKhz, effSleepKhz,
            remote_vote_append]
          intro hz0 _
          exact hz0
        · simp only [setActive] at h1
          simp [msm_rpmrs_set_noirq, h0, h1]
      · simp [msm_rpmrs_set_noirq, h0]

/-- The system invariant is the handle-level invariant of `a` towards `b`
together with the local conditions of `b`. -/
theorem AggInv_iff_a (s : RpmSys) :
    AggInv s ↔ HInv s.a s.b s.rpm ∧ s.b.branch = false ∧
      (s.b.last_set_khz = 0 → s.b.last_set_sleep_khz = 0) := by
  simp only [AggInv, HInv]
  tauto

/-- The system invariant is the handle-level invariant of `b` towards `a`
together with the local conditions of `a`. -/
theorem AggInv_iff_b (s : RpmSys) :
    AggInv s ↔ HInv s.b s.a s.rpm ∧ s.a.branch = false ∧
      (s.a.last_set_khz = 0 → s.a.last_set_sleep_khz = 0) := by
  simp only [AggInv, HInv, max_comm (effKhz s.a), max_comm (effSleepKhz s.a)]
  tauto

/-- Every operation on either handle keeps the aggregation invariant when the
remote set calls it issues succeed. -/
theorem AggInv_step (env : RpmEnv) (s : RpmSys) (c : Handle × ClkOp) (hs : AggInv s)
    (hok : ∀ x ∈ (RpmSys.step env s c).rpm.log.drop s.rpm.log.length, x.rc = 0) :
    AggInv (RpmSys.step env s c) := by
  obtain ⟨h, op⟩ := c
  cases h
  · obtain ⟨hh, hb, hz⟩ := (AggInv_iff_a s).1 hs
    cases op
    · exact (AggInv_iff_a _).2 ⟨HInv_enable env s.a s.b s.rpm hh hok, hb, hz⟩
    · exact (AggInv_iff_a _).2 ⟨HInv_disable env s.a s.b s.rpm hh hok, hb, hz⟩
    · exact (AggInv_iff_a _).2 ⟨HInv_set_rate env s.a s.b s.rpm _ hh hok, hb, hz⟩
  · obtain ⟨hh, hb, hz⟩ := (AggInv_iff_b s).1 hs
    cases op
    · exact (AggInv_iff_b _).2 ⟨HInv_enable env s.b s.a s.rpm hh hok, hb, hz⟩
    · exact (AggInv_iff_b _).2 ⟨HInv_disable env s.b s.a s.rpm hh hok, hb, hz⟩
    · exact (AggInv_iff_b _).2 ⟨HInv_set_rate env s.b s.a s.rpm _ hh hok, hb, hz⟩

/-- Every finite sequence of operations keeps the aggregation invariant when
the remote set calls it issues succeed. -/
theorem AggInv_run (env : RpmEnv) (calls : List (Handle × ClkOp)) (s : RpmSys)
    (hs : AggInv s)
    (hok : ∀ x ∈ (RpmSys.run env s calls).rpm.log.drop s.rpm.log.length, x.rc = 0) :
    AggInv (RpmSys.run env s calls) := by
  induction calls generalizing s with
  | nil => exact hs
  | cons c cs ih =>
    obtain ⟨e1, h1⟩ := log_extends_step env s c
    obtain ⟨e2, h2⟩ := log_extends_run env cs (RpmSys.step env s c)
    have hrun : RpmSys.run env s (c :: cs) = RpmSys.run env (RpmSys.step env s c) cs := rfl
    rw [hrun] at hok ⊢
    rw [h2, h1, List.append_assoc, List.drop_left] at hok
    refine ih (RpmSys.step env s c) (AggInv_step env s c hs ?_) ?_
    · rw [h1, List.drop_left]
      intro x hx
      exact hok x (List.mem_append_left _ hx)
    · rw [h2, List.drop_left]
      intro x hx
      exact hok x (List.mem_append_right _ hx)

/-- C1. Peer aggregation invariant: two tunable peer handles start disabled
with all four cached rates 0 and with remote active and sleep votes 0, and
every remote set call issued during a finite sequence of Enable, Disable and
SetRate calls on the two handles succeeds. After each call of the sequence
(the first `n` calls, for every `n`), if both handles are enabled then the
remote active vote is the maximum of the two cached active rates and the
remote sleep vote is the maximum of the two cached sleep rates. -/
theorem peer_aggregation_invariant (env : RpmEnv) (s0 : RpmSys)
    (calls : List (Handle × ClkOp)) (n : Nat)
    (hok : ∀ x ∈ (RpmSys.run env s0 calls).rpm.log.drop s0.rpm.log.length, x.rc = 0)
    (hbrA : s0.a.branch = false) (hbrB : s0.b.branch = false)
    (henA : s0.a.enabled = false) (henB : s0.b.enabled = false)
    (_hkA : s0.a.last_set_khz = 0) (hsA : s0.a.last_set_sleep_khz = 0)
    (_hkB : s0.b.last_set_khz = 0) (hsB : s0.b.last_set_sleep_khz = 0)
    (hv0 : remote_vote s0.rpm RpmCtx.MSM_RPM_CTX_SET_0 = 0)
    (hv1 : remote_vote s0.rpm RpmCtx.MSM_RPM_CTX_SET_SLEEP = 0) :
    (RpmSys.run env s0 (calls.take n)).a.enabled = true →
    (RpmSys.run env s0 (calls.take n)).b.enabled = true →
      remote_vote (RpmSys.run env s0 (calls.take n)).rpm RpmCtx.MSM_RPM_CTX_SET_0 =
        max (RpmSys.run env s0 (calls.take n)).a.last_set_khz
            (RpmSys.run env s0 (calls.take n)).b.last_set_khz ∧
      remote_vote (RpmSys.run env s0 (calls.take n)).rpm RpmCtx.MSM_RPM_CTX_SET_SLEEP =
        max (RpmSys.run env s0 (calls.take n)).a.last_set_sleep_khz
            (RpmSys.run env s0 (calls.take n)).b.last_set_sleep_khz := by
  have h0 : AggInv s0 := by
    simp [AggInv, effKhz, effSleepKhz, hbrA, hbrB, henA, henB, hsA, hsB, hv0, hv1]
  have hsplit : RpmSys.run env s0 calls =
      RpmSys.run env (RpmSys.run env s0 (calls.take n)) (calls.drop n) := by
    simp only [RpmSys.run, ← List.foldl_append, List.take_append_drop]
  obtain ⟨e1, h1⟩ := log_extends_run env (calls.take n) s0
  obtain ⟨e2, h2⟩ := log_extends_run env (calls.drop n) (RpmSys.run env s0 (calls.take n))
  rw [hsplit, h2, h1, List.append_assoc, List.drop_left] at hok
  have h := AggInv_run env (calls.take n) s0 h0 (by
    rw [h1, List.drop_left]
    intro x hx
    exact hok x (List.mem_append_left _ hx))
  intro ha hb
  obtain ⟨_, _, _, _, h3, h4⟩ := h
  simp only [effKhz, effSleepKhz, ha, hb, if_true] at h3 h4
  exact ⟨h3, h4⟩

/-- Witness of C1: after the first five calls of the spec scenario both
handles are enabled and both remote votes are the maximum of the caches. -/
theorem peer_aggregation_invariant_witness :
    remote_vote (RpmSys.run envOk sys0 (scenario.take 5)).rpm RpmCtx.MSM_RPM_CTX_SET_0 =
        max (RpmSys.run envOk sys0 (scenario.take 5)).a.last_set_khz
            (RpmSys.run envOk sys0 (scenario.take 5)).b.last_set_khz ∧
      remote_vote (RpmSys.run envOk sys0 (scenario.take 5)).rpm RpmCtx.MSM_RPM_CTX_SET_SLEEP =
        max (RpmSys.run envOk sys0 (scenario.take 5)).a.last_set_sleep_khz
            (RpmSys.run envOk sys0 (scenario.take 5)).b.last_set_sleep_khz :=
  peer_aggregation_invariant envOk sys0 scenario 5 (by decide)
    rfl rfl rfl rfl rfl rfl rfl rfl rfl rfl (by decide) (by decide)

/-- C3. Disable, transmitted values: on a handle with a non-zero cached rate,
Disable first issues a set call to the active context carrying the peer-only
active value (coerced for a branch); when that call fails it is the only call
issued, and when it succeeds a second call to the sleep context carries the
peer-only sleep value (coerced likewise). -/
theorem disable_transmits (env : RpmEnv) (r peer : rpm_clk) (w : Rpm)
    (hrate : r.last_set_khz ≠ 0) :
    (rpm_clk_disable env r peer w).2.log =
      if env w.log RpmCtx.MSM_RPM_CTX_SET_0 r.rpm_clk_id (coerce r (peerKhz peer)) ≠ 0 then
        w.log ++ [setActive r.rpm_clk_id (coerce r (peerKhz peer))
                    (env w.log RpmCtx.MSM_RPM_CTX_SET_0 r.rpm_clk_id (coerce r (peerKhz peer)))]
      else
        w.log ++ [setActive r.rpm_clk_id (coerce r (peerKhz peer)) 0,
                  setSleep r.rpm_clk_id (coerce r (peerSleepKhz peer))
                    (env (w.log ++ [setActive r.rpm_clk_id (coerce r (peerKhz peer)) 0])
                      RpmCtx.MSM_RPM_CTX_SET_SLEEP r.rpm_clk_id
                      (coerce r (peerSleepKhz peer)))] := by
  by_cases h : env w.log RpmCtx.MSM_RPM_CTX_SET_0 r.rpm_clk_id (coerce r (peerKhz peer)) = 0
  · have h2 := h
    simp only [coerce, peerKhz] at h2
    simp [rpm_clk_disable, msm_rpmrs_set_noirq, hrate, h, h2, coerce, peerKhz, peerSleepKhz,
      setActive, setSleep]
  · have h2 := h
    simp only [coerce, peerKhz] at h2
    simp [rpm_clk_disable, msm_rpmrs_set_noirq, hrate, h, h2, coerce, peerKhz,
      setActive]

/-- Witness of C3: with A and B enabled at 1000 and 2000 kHz, Disable(A)
transmits Active=2000 and then Sleep=2000. -/
theorem disable_transmits_witness :
    (rpm_clk_disable envOk (mkClk 1000 1000 true) (mkClk 2000 2000 true) rpm0).2.log =
      [setActive 7 2000 0, setSleep 7 2000 0] :=
  (disable_transmits envOk (mkClk 1000 1000 true) (mkClk 2000 2000 true) rpm0
    (by decide)).trans (by decide)

/-- Counterexample to C4 as stated: an enabled tunable handle cached at
1000/1000 is asked for rate 0. SetRate transmits Active=0 and Sleep=0, while
Enable on the same handle with the caches (0, 0) transmits nothing, so the
values SetRate transmits are not the ones Enable would transmit. -/
theorem set_rate_zero_differs_from_enable :
    (rpm_clk_set_rate envOk (mkClk 1000 1000 true) (mkClk 0 0 false) rpm0 0).2.2.log =
        [setActive 7 0 0, setSleep 7 0 0] ∧
      (rpm_clk_enable envOk (mkClk 0 0 true) (mkClk 0 0 false) rpm0).2.2.log = [] := by
  decide

/-- C4, amended. SetRate, non-duplicate request on a tunable handle, with `k`
the requested rate in kHz, different from the cached rate, and `s` equal to 0
for an active-only handle and to `k` otherwise. A handle that is not enabled
issues no remote set call, returns 0 and caches `(k, s)`. An enabled handle
whose two set calls succeed transmits `max k p` to the active context and then
`max s ps` to the sleep context, returns 0 and caches `(k, s)`; when `k` is
non-zero these are the calls Enable issues for the cached rates `(k, s)`.
The enabled flag is unchanged in both cases. -/
theorem set_rate_non_duplicate (env : RpmEnv) (r peer : rpm_clk) (w : Rpm) (rate : Nat)
    (hbr : r.branch = false) (hne : r.last_set_khz ≠ DIV_ROUND_UP rate 1000) :
    (r.enabled = false →
      rpm_clk_set_rate env r peer w rate =
        (0, { r with last_set_khz := DIV_ROUND_UP rate 1000,
                     last_set_sleep_khz :=
                       if r.active_only then 0 else DIV_ROUND_UP rate 1000 }, w)) ∧
    (r.enabled = true →
      env w.log RpmCtx.MSM_RPM_CTX_SET_0 r.rpm_clk_id
        (max (DIV_ROUND_UP rate 1000) (peerKhz peer)) = 0 →
      env (w.log ++ [setActive r.rpm_clk_id (max (DIV_ROUND_UP rate 1000) (peerKhz peer)) 0])
        RpmCtx.MSM_RPM_CTX_SET_SLEEP r.rpm_clk_id
        (max (if r.active_only then 0 else DIV_ROUND_UP rate 1000) (peerSleepKhz peer)) = 0 →
      rpm_clk_set_rate env r peer w rate =
        (0, { r with last_set_khz := DIV_ROUND_UP rate 1000,
                     last_set_sleep_khz :=
                       if r.active_only then 0 else DIV_ROUND_UP rate 1000 },
         { log := w.log ++
             [setActive r.rpm_clk_id (max (DIV_ROUND_UP rate 1000) (peerKhz peer)) 0,
              setSleep r.rpm_clk_id
                (max (if r.active_only then 0 else DIV_ROUND_UP rate 1000)
                  (peerSleepKhz peer)) 0] }) ∧
      (DIV_ROUND_UP rate 1000 ≠ 0 →
        (rpm_clk_enable env
            { r with last_set_khz := DIV_ROUND_UP rate 1000,
                     last_set_sleep_khz :=
                       if r.active_only then 0 else DIV_ROUND_UP rate 1000 } peer w).2.2 =
          (rpm_clk_set_rate env r peer w rate).2.2)) := by
  refine ⟨?_, ?_⟩
  · intro hen
    simp [rpm_clk_set_rate, hne, hen]
  · intro hen h0 h1
    simp only [peerKhz, peerSleepKhz, setActive] at h0 h1
    refine ⟨?_, ?_⟩
    · simp [rpm_clk_set_rate, msm_rpmrs_set_noirq, hne, hen, h0, h1, peerKhz, peerSleepKhz,
        setActive, setSleep]
    · intro hk
      simp [rpm_clk_set_rate, rpm_clk_enable, rpm_clk_enable_out, msm_rpmrs_set_noirq, hne,
        hen, h0, h1, hk, hbr]

/-- Witness of the amended C4: an enabled tunable handle cached at 1000/1000
with a disabled peer, asked for 2 MHz, transmits Active=2000 and Sleep=2000,
which is what Enable transmits for the caches 2000/2000. -/
theorem set_rate_non_duplicate_witness :
    rpm_clk_set_rate envOk (mkClk 1000 1000 true) (mkClk 0 0 false) rpm0 2000000 =
        (0, mkClk 2000 2000 true, { log := [setActive 7 2000 0, setSleep 7 2000 0] }) ∧
      (rpm_clk_enable envOk (mkClk 2000 2000 true) (mkClk 0 0 false) rpm0).2.2 =
        (rpm_clk_set_rate envOk (mkClk 1000 1000 true) (mkClk 0 0 false) rpm0 2000000).2.2 :=
  ⟨((set_rate_non_duplicate envOk (mkClk 1000 1000 true) (mkClk 0 0 false) rpm0 2000000
      rfl (by decide)).2 rfl rfl rfl).1,
   ((set_rate_non_duplicate envOk (mkClk 1000 1000 true) (mkClk 0 0 false) rpm0 2000000
      rfl (by decide)).2 rfl rfl rfl).2 (by decide)⟩

/-- Counterexample to C5 as stated: an enabled handle with cached rate 1000
whose active-context set call fails is still enabled after Disable. -/
theorem disable_vetoed_by_active_failure :
    rpm_clk_disable envFail (mkClk 1000 1000 true) (mkClk 0 0 false) rpm0 =
      (mkClk 1000 1000 true, { log := [setActive 7 0 (-5)] }) := by
  decide

/-- C5, amended. After Disable the enabled flag is false, except when the
cached rate is non-zero and the active-context set call fails: then the flag
is left as it was. The outcome of the sleep-context call has no influence. -/
theorem disable_enabled_flag (env : RpmEnv) (r peer : rpm_clk) (w : Rpm) :
    (rpm_clk_disable env r peer w).1.enabled =
      if r.last_set_khz ≠ 0 ∧
          env w.log RpmCtx.MSM_RPM_CTX_SET_0 r.rpm_clk_id (coerce r (peerKhz peer)) ≠ 0
      then r.enabled else false := by
  by_cases hrate : r.last_set_khz = 0
  · simp [rpm_clk_disable, hrate]
  · by_cases h : env w.log RpmCtx.MSM_RPM_CTX_SET_0 r.rpm_clk_id (coerce r (peerKhz peer)) = 0
    · have h2 := h
      simp only [coerce, peerKhz] at h2
      simp [rpm_clk_disable, msm_rpmrs_set_noirq, hrate, h, h2]
    · have h2 := h
      simp only [coerce, peerKhz] at h2
      simp [rpm_clk_disable, msm_rpmrs_set_noirq, hrate, h, h2]

/-- C6, evaluated at the failing input: a branch handle cached at 19200 whose
enabled peer is cached at 19200, with the active-context calls succeeding and
the sleep-context call failing with -5. Enable transmits Active=1, Sleep=1
and then rolls the active vote back with the raw value 19200 instead of 1;
Disable on the same handle transmits the coerced peer-only value 1. -/
theorem enable_rollback_not_coerced :
    rpm_clk_enable envSleepFail (mkBranch 19200 19200 false) (mkBranch 19200 19200 true) rpm0 =
        (-5, mkBranch 19200 19200 false,
         { log := [setActive 7 1 0, setSleep 7 1 (-5), setActive 7 19200 0] }) ∧
      (rpm_clk_disable envOk (mkBranch 19200 19200 false) (mkBranch 19200 19200 true) rpm0).2 =
        { log := [setActive 7 1 0, setSleep 7 1 0] } := by
  decide

/-- C7. Failure leaves local state intact: whenever Enable or SetRate returns
a non-zero code, the record of the handle (so its enabled flag and both
caches) is what it was before the call, and the code returned is the code of
the first failing remote set call issued by the operation. -/
theorem failure_keeps_state (env : RpmEnv) (r peer : rpm_clk) (w : Rpm) (rate : Nat) :
    ((rpm_clk_enable env r peer w).1 ≠ 0 →
      (rpm_clk_enable env r peer w).2.1 = r ∧
      firstFailure w (rpm_clk_enable env r peer w).2.2 =
        some (rpm_clk_enable env r peer w).1) ∧
    ((rpm_clk_set_rate env r peer w rate).1 ≠ 0 →
      (rpm_clk_set_rate env r peer w rate).2.1 = r ∧
      firstFailure w (rpm_clk_set_rate env r peer w rate).2.2 =
        some (rpm_clk_set_rate env r peer w rate).1) := by
  refine ⟨?_, ?_⟩
  · unfold rpm_clk_enable
    by_cases hk : r.last_set_khz = 0
    · simp [rpm_clk_enable_out, hk]
    · simp only [hk, if_false]
      generalize hv0 : (if r.branch = true then
        notnot (max r.last_set_khz (if peer.enabled = true then peer.last_set_khz else 0))
        else max r.last_set_khz (if peer.enabled = true then peer.last_set_khz else 0)) = v0
      generalize hv1 : (if r.branch = true then
        notnot (max r.last_set_sleep_khz
          (if peer.enabled = true then peer.last_set_sleep_khz else 0))
        else max r.last_set_sleep_khz
          (if peer.enabled = true then peer.last_set_sleep_khz else 0)) = v1
      by_cases h0 : env w.log RpmCtx.MSM_RPM_CTX_SET_0 r.rpm_clk_id v0 = 0
      · by_cases h1 : env (w.log ++ [setActive r.rpm_clk_id v0 0])
            RpmCtx.MSM_RPM_CTX_SET_SLEEP r.rpm_clk_id v1 = 0
        · simp only [setActive] at h1
          simp [rpm_clk_enable_out, msm_rpmrs_set_noirq, h0, h1]
        · simp only [setActive] at h1
          simp [rpm_clk_enable_out, msm_rpmrs_set_noirq, h0, h1, firstFailure,
            List.find?_cons]
      · simp [rpm_clk_enable_out, msm_rpmrs_set_noirq, h0, firstFailure, List.find?_cons]
  · unfold rpm_clk_set_rate
    by_cases hk : r.last_set_khz = DIV_ROUND_UP rate 1000
    · simp [hk]
    · cases hen : r.enabled
      · simp [hk]
      · simp only [hk, if_false, if_true]
        generalize hv0 : max (DIV_ROUND_UP rate 1000)
          (if peer.enabled = true then peer.last_set_khz else 0) = v0
        generalize hv1 : max (if r.active_only = true then 0 else DIV_ROUND_UP rate 1000)
          (if peer.enabled = true then peer.last_set_sleep_khz else 0) = v1
        by_cases h0 : env w.log RpmCtx.MSM_RPM_CTX_SET_0 r.rpm_clk_id v0 = 0
        · by_cases h1 : env (w.log ++ [setActive r.rpm_clk_id v0 0])
              RpmCtx.MSM_RPM_CTX_SET_SLEEP r.rpm_clk_id v1 = 0
          · simp only [setActive] at h1
            simp [msm_rpmrs_set_noirq, h0, h1]
          · simp only [setActive] at h1
            simp [msm_rpmrs_set_noirq, h0, h1, firstFailure, List.find?_cons]
        · simp [msm_rpmrs_set_noirq, h0, firstFailure, List.find?_cons]

/-- Witness of C7: with every remote call failing with -5, Enable and
SetRate(2 MHz) on an enabled handle cached at 1000/1000 return -5, the code of
their failing active-context call, and leave the handle as it was. -/
theorem failure_keeps_state_witness :
    ((rpm_clk_enable envFail (mkClk 1000 1000 true) (mkClk 0 0 false) rpm0).2.1 =
        mkClk 1000 1000 true ∧
      firstFailure rpm0 (rpm_clk_enable envFail (mkClk 1000 1000 true) (mkClk 0 0 false) rpm0).2.2 =
        some (rpm_clk_enable envFail (mkClk 1000 1000 true) (mkClk 0 0 false) rpm0).1) ∧
    ((rpm_clk_set_rate envFail (mkClk 1000 1000 true) (mkClk 0 0 false) rpm0 2000000).2.1 =
        mkClk 1000 1000 true ∧
      firstFailure rpm0
          (rpm_clk_set_rate envFail (mkClk 1000 1000 true) (mkClk 0 0 false) rpm0 2000000).2.2 =
        some (rpm_clk_set_rate envFail (mkClk 1000 1000 true) (mkClk 0 0 false)
          rpm0 2000000).1) :=
  ⟨(failure_keeps_state envFail (mkClk 1000 1000 true) (mkClk 0 0 false) rpm0 2000000).1
      (by decide),
   (failure_keeps_state envFail (mkClk 1000 1000 true) (mkClk 0 0 false) rpm0 2000000).2
      (by decide)⟩

/-- Counterexample to C8 as stated: in the spec scenario, after
SetRate(A, 1 MHz), Enable(A), Enable(B) the handle B is enabled, and the
following SetRate(B, 2 MHz) issues two remote set calls. -/
theorem enable_unset_rate_scenario_enables :
    (RpmSys.run envOk sys0 (scenario.take 3)).b = mkClk 0 0 true ∧
      (RpmSys.run envOk sys0 (scenario.take 3)).rpm.log =
        [setActive 7 1000 0, setSleep 7 1000 0] ∧
      (RpmSys.run envOk sys0 (scenario.take 4)).rpm.log =
        [setActive 7 1000 0, setSleep 7 1000 0, setActive 7 2000 0, setSleep 7 2000 0] := by
  decide

/-- C8, amended. Enable on a handle with unset rate contacts no remote
resource but marks the handle enabled: for every disabled handle B with cached
rate 0, Enable(B) returns 0, issues no remote set call, leaves the caches
unchanged and sets the enabled flag. A following SetRate(B, r) with non-zero
kHz value therefore runs on an enabled handle: when its two set calls succeed
it transmits the aggregated values to the active and then to the sleep
context and updates B caches. In the spec scenario with all remote calls
succeeding, after SetRate(A, 1 MHz), Enable(A), Enable(B) the handle B is
enabled with caches 0/0, and SetRate(B, 2 MHz) transmits Active=2000 and
Sleep=2000 and sets the caches of B to 2000/2000. -/
theorem enable_unset_rate_marks_enabled (env : RpmEnv) (b peer : rpm_clk) (w : Rpm)
    (rate : Nat) (_hdis : b.enabled = false) (hrate : b.last_set_khz = 0) :
    rpm_clk_enable env b peer w = (0, { b with enabled := true }, w) ∧
    (DIV_ROUND_UP rate 1000 ≠ 0 →
      env w.log RpmCtx.MSM_RPM_CTX_SET_0 b.rpm_clk_id
        (max (DIV_ROUND_UP rate 1000) (peerKhz peer)) = 0 →
      env (w.log ++ [setActive b.rpm_clk_id (max (DIV_ROUND_UP rate 1000) (peerKhz peer)) 0])
        RpmCtx.MSM_RPM_CTX_SET_SLEEP b.rpm_clk_id
        (max (if b.active_only then 0 else DIV_ROUND_UP rate 1000) (peerSleepKhz peer)) = 0 →
      rpm_clk_set_rate env (rpm_clk_enable env b peer w).2.1 peer
          (rpm_clk_enable env b peer w).2.2 rate =
        (0, { b with enabled := true, last_set_khz := DIV_ROUND_UP rate 1000,
                     last_set_sleep_khz :=
                       if b.active_only then 0 else DIV_ROUND_UP rate 1000 },
         { log := w.log ++
             [setActive b.rpm_clk_id (max (DIV_ROUND_UP rate 1000) (peerKhz peer)) 0,
              setSleep b.rpm_clk_id
                (max (if b.active_only then 0 else DIV_ROUND_UP rate 1000)
                  (peerSleepKhz peer)) 0] })) ∧
    (RpmSys.run envOk sys0 (scenario.take 3)).b = mkClk 0 0 true ∧
    RpmSys.step envOk (RpmSys.run envOk sys0 (scenario.take 3))
        (Handle.B, ClkOp.set_rate 2000000) =
      { a := mkClk 1000 1000 true, b := mkClk 2000 2000 true,
        rpm := { log := [setActive 7 1000 0, setSleep 7 1000 0,
                         setActive 7 2000 0, setSleep 7 2000 0] } } := by
  have he : rpm_clk_enable env b peer w = (0, { b with enabled := true }, w) := by
    simp [rpm_clk_enable, rpm_clk_enable_out, hrate]
  refine ⟨he, ?_, by decide, by decide⟩
  intro hk h0 h1
  have hk2 : ¬ (0 = DIV_ROUND_UP rate 1000) := fun h => hk h.symm
  simp only [peerKhz, peerSleepKhz, setActive] at h0 h1
  rw [he]
  simp [rpm_clk_set_rate, msm_rpmrs_set_noirq, hrate, hk2, h0, h1, peerKhz, peerSleepKhz,
    setActive, setSleep]

/-- Witness of the amended C8: B disabled and unset next to A enabled at
1000/1000; Enable(B) only sets the flag and SetRate(B, 2 MHz) then transmits
Active=2000 and Sleep=2000. -/
theorem enable_unset_rate_marks_enabled_witness :
    rpm_clk_enable envOk (mkClk 0 0 false) (mkClk 1000 1000 true) rpm0 =
        (0, mkClk 0 0 true, rpm0) ∧
      rpm_clk_set_rate envOk
          (rpm_clk_enable envOk (mkClk 0 0 false) (mkClk 1000 1000 true) rpm0).2.1
          (mkClk 1000 1000 true)
          (rpm_clk_enable envOk (mkClk 0 0 false) (mkClk 1000 1000 true) rpm0).2.2 2000000 =
        (0, mkClk 2000 2000 true, { log := [setActive 7 2000 0, setSleep 7 2000 0] }) :=
  ⟨(enable_unset_rate_marks_enabled envOk (mkClk 0 0 false) (mkClk 1000 1000 true) rpm0
      2000000 rfl rfl).1,
   (enable_unset_rate_marks_enabled envOk (mkClk 0 0 false) (mkClk 1000 1000 true) rpm0
      2000000 rfl rfl).2.1 (by decide) rfl rfl⟩

/-- C9. A handle whose rate was never set never contacts the remote resource
on enable or disable: with cached rate 0, whatever the enabled flag and the
peer, Enable returns 0 and leaves the remote log as it was, Disable leaves the
remote log as it was, and so both remote votes are the same after the call as
before. -/
theorem unset_rate_no_remote_call (env : RpmEnv) (r peer : rpm_clk) (w : Rpm)
    (hrate : r.last_set_khz = 0) :
    (rpm_clk_enable env r peer w).1 = 0 ∧
    (rpm_clk_enable env r peer w).2.2 = w ∧
    (rpm_clk_disable env r peer w).2 = w ∧
    (∀ ctx, remote_vote (rpm_clk_enable env r peer w).2.2 ctx = remote_vote w ctx) ∧
    (∀ ctx, remote_vote (rpm_clk_disable env r peer w).2 ctx = remote_vote w ctx) := by
  have he : (rpm_clk_enable env r peer w).2.2 = w := by
    simp [rpm_clk_enable, rpm_clk_enable_out, hrate]
  have hd : (rpm_clk_disable env r peer w).2 = w := by
    simp [rpm_clk_disable, hrate]
  refine ⟨?_, he, hd, ?_, ?_⟩
  · simp [rpm_clk_enable, rpm_clk_enable_out, hrate]
  · intro ctx
    rw [he]
  · intro ctx
    rw [hd]

/-- Witness of C9: B enabled with unset rate next to A enabled at 2000/2000,
the remote votes standing at 2000; Enable(B) and Disable(B) add nothing to
the remote log. -/
theorem unset_rate_no_remote_call_witness :
    (rpm_clk_enable envFail (mkClk 0 0 true) (mkClk 2000 2000 true)
        { log := [setActive 7 2000 0, setSleep 7 2000 0] }).1 = 0 ∧
      (rpm_clk_enable envFail (mkClk 0 0 true) (mkClk 2000 2000 true)
        { log := [setActive 7 2000 0, setSleep 7 2000 0] }).2.2 =
        { log := [setActive 7 2000 0, setSleep 7 2000 0] } ∧
      (rpm_clk_disable envFail (mkClk 0 0 true) (mkClk 2000 2000 true)
        { log := [setActive 7 2000 0, setSleep 7 2000 0] }).2 =
        { log := [setActive 7 2000 0, setSleep 7 2000 0] } :=
  ⟨(unset_rate_no_remote_call envFail (mkClk 0 0 true) (mkClk 2000 2000 true)
      { log := [setActive 7 2000 0, setSleep 7 2000 0] } rfl).1,
   (unset_rate_no_remote_call envFail (mkClk 0 0 true) (mkClk 2000 2000 true)
      { log := [setActive 7 2000 0, setSleep 7 2000 0] } rfl).2.1,
   (unset_rate_no_remote_call envFail (mkClk 0 0 true) (mkClk 2000 2000 true)
      { log := [setActive 7 2000 0, setSleep 7 2000 0] } rfl).2.2.1⟩

/-- Counterexample to C10 as stated: an enabled handle cached at 1000/1000
whose remote calls fail. SetRate(2 MHz) called twice in a row issues an
active-context call each time (two transmissions for that context), and the
second call returns -5. -/
theorem set_rate_twice_after_failure :
    rpm_clk_set_rate envFail
        (rpm_clk_set_rate envFail (mkClk 1000 1000 true) (mkClk 0 0 false) rpm0 2000000).2.1
        (mkClk 0 0 false)
        (rpm_clk_set_rate envFail (mkClk 1000 1000 true) (mkClk 0 0 false) rpm0 2000000).2.2
        2000000 =
      (-5, mkClk 1000 1000 true,
       { log := [setActive 7 2000 (-5), setActive 7 2000 (-5)] }) ∧
    transmissions rpm0
        (rpm_clk_set_rate envFail
          (rpm_clk_set_rate envFail (mkClk 1000 1000 true) (mkClk 0 0 false) rpm0 2000000).2.1
          (mkClk 0 0 false)
          (rpm_clk_set_rate envFail (mkClk 1000 1000 true) (mkClk 0 0 false) rpm0 2000000).2.2
          2000000).2.2
        RpmCtx.MSM_RPM_CTX_SET_0 = 2 := by
  decide

/-- C10, amended. SetRate is idempotent once it has succeeded: when SetRate is
called twice in a row with the same rate and the first call returns 0, the
second call issues no remote set call, returns 0 and leaves the state produced
by the first call unchanged, so the two calls together issue at most one
remote transmission per context. In particular, whenever the requested rate in
kHz equals the cached rate, SetRate returns 0, issues no remote call and
changes no field. -/
theorem set_rate_idempotent (env : RpmEnv) (r peer : rpm_clk) (w : Rpm) (rate : Nat) :
    (r.last_set_khz = DIV_ROUND_UP rate 1000 → rpm_clk_set_rate env r peer w rate = (0, r, w)) ∧
    ((rpm_clk_set_rate env r peer w rate).1 = 0 →
      rpm_clk_set_rate env (rpm_clk_set_rate env r peer w rate).2.1 peer
          (rpm_clk_set_rate env r peer w rate).2.2 rate =
        (0, (rpm_clk_set_rate env r peer w rate).2.1, (rpm_clk_set_rate env r peer w rate).2.2) ∧
      ∀ ctx, transmissions w
          (rpm_clk_set_rate env (rpm_clk_set_rate env r peer w rate).2.1 peer
            (rpm_clk_set_rate env r peer w rate).2.2 rate).2.2 ctx ≤ 1) := by
  have hdup : ∀ (r1 : rpm_clk) (w1 : Rpm), r1.last_set_khz = DIV_ROUND_UP rate 1000 →
      rpm_clk_set_rate env r1 peer w1 rate = (0, r1, w1) := by
    intro r1 w1 h
    simp [rpm_clk_set_rate, h]
  refine ⟨hdup r w, ?_⟩
  intro hok
  have hboth : (rpm_clk_set_rate env r peer w rate).2.1.last_set_khz =
        DIV_ROUND_UP rate 1000 ∧
      ∀ ctx, transmissions w (rpm_clk_set_rate env r peer w rate).2.2 ctx ≤ 1 := by
    revert hok
    unfold rpm_clk_set_rate
    by_cases hk : r.last_set_khz = DIV_ROUND_UP rate 1000
    · simp [hk, transmissions]
    · cases hen : r.enabled
      · simp [hk, transmissions]
      · simp only [hk, if_false, if_true]
        generalize hv0 : max (DIV_ROUND_UP rate 1000)
          (if peer.enabled = true then peer.last_set_khz else 0) = v0
        generalize hv1 : max (if r.active_only = true then 0 else DIV_ROUND_UP rate 1000)
          (if peer.enabled = true then peer.last_set_sleep_khz else 0) = v1
        by_cases h0 : env w.log RpmCtx.MSM_RPM_CTX_SET_0 r.rpm_clk_id v0 = 0
        · by_cases h1 : env (w.log ++ [setActive r.rpm_clk_id v0 0])
              RpmCtx.MSM_RPM_CTX_SET_SLEEP r.rpm_clk_id v1 = 0
          · simp only [setActive] at h1
            intro _
            refine ⟨by simp [msm_rpmrs_set_noirq, h0, h1], ?_⟩
            intro ctx
            cases ctx <;>
              simp [transmissions, msm_rpmrs_set_noirq, h0, h1, List.countP_cons]
          · simp only [setActive] at h1
            simp [msm_rpmrs_set_noirq, h0, h1]
        · simp [msm_rpmrs_set_noirq, h0]
  obtain ⟨hcache, hcount⟩ := hboth
  rw [hdup _ _ hcache]
  exact ⟨rfl, hcount⟩

/-- Witness of the amended C10: an enabled handle cached at 1000/1000 with all
remote calls succeeding; the second SetRate(2 MHz) changes nothing and the two
calls together transmit once to the active context. -/
theorem set_rate_idempotent_witness :
    rpm_clk_set_rate envOk (mkClk 2000 2000 true) (mkClk 0 0 false) rpm0 2000000 =
        (0, mkClk 2000 2000 true, rpm0) ∧
      rpm_clk_set_rate envOk
          (rpm_clk_set_rate envOk (mkClk 1000 1000 true) (mkClk 0 0 false) rpm0 2000000).2.1
          (mkClk 0 0 false)
          (rpm_clk_set_rate envOk (mkClk 1000 1000 true) (mkClk 0 0 false) rpm0 2000000).2.2
          2000000 =
        (0, mkClk 2000 2000 true, { log := [setActive 7 2000 0, setSleep 7 2000 0] }) :=
  ⟨(set_rate_idempotent envOk (mkClk 2000 2000 true) (mkClk 0 0 false) rpm0 2000000).1
      (by decide),
   ((set_rate_idempotent envOk (mkClk 1000 1000 true) (mkClk 0 0 false) rpm0 2000000).2
      (by decide)).1⟩

/-- The coercion of a branch handle yields 0 or 1. -/
theorem notnot_le_one (v : Nat) : notnot v = 0 ∨ notnot v = 1 := by
  unfold notnot
  split_ifs
  · exact Or.inl rfl
  · exact Or.inr rfl

/-- Apart from the rollback call of Enable, the values a branch handle
transmits are coerced: every remote set call issued by Disable and the two
vote calls of Enable (the first two calls it issues) carry 0 or 1. -/
theorem branch_vote_calls_boolean (env : RpmEnv) (r peer : rpm_clk) (w : Rpm)
    (hbr : r.branch = true) :
    (∀ x ∈ (rpm_clk_disable env r peer w).2.log.drop w.log.length,
        x.iv_value = 0 ∨ x.iv_value = 1) ∧
    (∀ x ∈ ((rpm_clk_enable env r peer w).2.2.log.drop w.log.length).take 2,
        x.iv_value = 0 ∨ x.iv_value = 1) := by
  refine ⟨?_, ?_⟩
  · unfold rpm_clk_disable
    simp only [hbr, if_true, msm_rpmrs_set_noirq]
    split_ifs <;> simp [notnot_le_one]
  · unfold rpm_clk_enable
    simp only [hbr, if_true, msm_rpmrs_set_noirq, rpm_clk_enable_out]
    split_ifs <;> simp [notnot_le_one]

/-- C11, evaluated at the failing input: Enable, an operation of the branch
table, on a branch handle cached at 27000 whose enabled peer is cached at
27000, with the active-context calls succeeding and the sleep-context call
failing with -5. The three remote set calls issued carry 1, 1 and 27000: the
rollback call transmits a raw frequency, neither 0 nor 1. -/
theorem branch_rollback_transmits_raw :
    dispatchable (mkBranch 27000 27000 false) AnyOp.enable = true ∧
      (rpm_clk_enable envSleepFail (mkBranch 27000 27000 false) (mkBranch 27000 27000 true)
          rpm0).2.2.log =
        [setActive 7 1 0, setSleep 7 1 (-5), setActive 7 27000 0] ∧
      ¬ ((27000 : Nat) = 0 ∨ (27000 : Nat) = 1) := by
  decide

/-- No operation changes the resource ids, the branch flag or the active-only
flag of its handle. -/
theorem applyOp_immutable (env : RpmEnv) (status : RpmStatusEnv) (op : AnyOp)
    (r peer : rpm_clk) (w : Rpm) :
    (applyOp env status op r peer w).1.rpm_clk_id = r.rpm_clk_id ∧
    (applyOp env status op r peer w).1.rpm_status_id = r.rpm_status_id ∧
    (applyOp env status op r peer w).1.branch = r.branch ∧
    (applyOp env status op r peer w).1.active_only = r.active_only := by
  cases op
  · simp only [applyOp, rpm_clk_enable, rpm_clk_enable_out]
    split_ifs <;> simp
  · simp only [applyOp, rpm_clk_disable]
    split_ifs <;> simp
  · simp only [applyOp, rpm_clk_set_rate]
    split_ifs <;> simp
  · simp [applyOp]
  · simp [applyOp]
  · simp [applyOp]
  · simp [applyOp]
  · simp only [applyOp, rpm_clk_handoff]
    split_ifs <;> simp

/-- No operation makes the sleep cache of an active-only handle non-zero. -/
theorem applyOp_sleep_zero (env : RpmEnv) (status : RpmStatusEnv) (op : AnyOp)
    (r peer : rpm_clk) (w : Rpm) (hao : r.active_only = true)
    (hz : r.last_set_sleep_khz = 0) :
    (applyOp env status op r peer w).1.last_set_sleep_khz = 0 := by
  cases op
  · simp only [applyOp, rpm_clk_enable, rpm_clk_enable_out]
    split_ifs <;> simp [hz]
  · simp only [applyOp, rpm_clk_disable]
    split_ifs <;> simp [hz]
  · simp only [applyOp, rpm_clk_set_rate, hao, if_true]
    split_ifs <;> simp [hz]
  · simpa [applyOp] using hz
  · simpa [applyOp] using hz
  · simpa [applyOp] using hz
  · simpa [applyOp] using hz
  · simp only [applyOp, rpm_clk_handoff]
    split_ifs <;> simp_all

/-- The sleep-context values Enable transmits for a handle with zero sleep
cache: the coerced peer-only sleep requirement. -/
theorem enable_sleep_values (env : RpmEnv) (r peer : rpm_clk) (w : Rpm)
    (hz : r.last_set_sleep_khz = 0) :
    ∀ x ∈ (rpm_clk_enable env r peer w).2.2.log.drop w.log.length,
      x.ctx = RpmCtx.MSM_RPM_CTX_SET_SLEEP → x.iv_value = coerce r (peerSleepKhz peer) := by
  simp only [rpm_clk_enable, rpm_clk_enable_out, msm_rpmrs_set_noirq, hz, coerce,
    peerSleepKhz]
  split_ifs <;> simp

/-- The sleep-context values Disable transmits: the coerced peer-only sleep
requirement. -/
theorem disable_sleep_values (env : RpmEnv) (r peer : rpm_clk) (w : Rpm) :
    ∀ x ∈ (rpm_clk_disable env r peer w).2.log.drop w.log.length,
      x.ctx = RpmCtx.MSM_RPM_CTX_SET_SLEEP → x.iv_value = coerce r (peerSleepKhz peer) := by
  simp only [rpm_clk_disable, msm_rpmrs_set_noirq, coerce, peerSleepKhz]
  split_ifs <;> simp

/-- The sleep-context values SetRate transmits for a tunable active-only
handle: the peer-only sleep requirement. -/
theorem set_rate_sleep_values (env : RpmEnv) (r peer : rpm_clk) (w : Rpm) (rate : Nat)
    (hao : r.active_only = true) (hbr : r.branch = false) :
    ∀ x ∈ (rpm_clk_set_rate env r peer w rate).2.2.log.drop w.log.length,
      x.ctx = RpmCtx.MSM_RPM_CTX_SET_SLEEP → x.iv_value = coerce r (peerSleepKhz peer) := by
  simp only [rpm_clk_set_rate, msm_rpmrs_set_noirq, hao, hbr, if_true, if_false,
    Bool.false_eq_true, peerSleepKhz, coerce]
  split_ifs <;> simp

/-- The sleep-context values any operation transmits for an active-only handle
with zero sleep cache, when the operation is in the table of the handle: the
peer-only sleep requirement, coerced for a branch. -/
theorem applyOp_sleep_values (env : RpmEnv) (status : RpmStatusEnv) (op : AnyOp)
    (r peer : rpm_clk) (w : Rpm) (hao : r.active_only = true)
    (hz : r.last_set_sleep_khz = 0) (hd : dispatchable r op = true) :
    ∀ x ∈ (applyOp env status op r peer w).2.log.drop w.log.length,
      x.ctx = RpmCtx.MSM_RPM_CTX_SET_SLEEP → x.iv_value = coerce r (peerSleepKhz peer) := by
  cases op
  · exact enable_sleep_values env r peer w hz
  · exact disable_sleep_values env r peer w
  · rename_i rate
    have hbr : r.branch = false := by
      cases hb : r.branch
      · rfl
      · simp [dispatchable, hb, clk_ops_rpm_branch] at hd
    exact set_rate_sleep_values env r peer w rate hao hbr
  all_goals simp [applyOp]

/-- The record of a handle after one call on the pair. -/
theorem stepAll_handle (env : RpmEnv) (s : RpmSys) (c : ClkCall) (h : Handle) :
    (RpmSys.stepAll env s c).handle h =
      if c.h = h then (applyOp env c.status c.op (s.handle h) (s.peerOf h) s.rpm).1
      else s.handle h := by
  obtain ⟨ch, op, st⟩ := c
  cases ch <;> cases h <;> simp [RpmSys.stepAll, RpmSys.handle, RpmSys.peerOf]

/-- The remote log after one call on the pair. -/
theorem stepAll_rpm (env : RpmEnv) (s : RpmSys) (c : ClkCall) :
    (RpmSys.stepAll env s c).rpm =
      (applyOp env c.status c.op (s.handle c.h) (s.peerOf c.h) s.rpm).2 := by
  obtain ⟨ch, op, st⟩ := c
  cases ch <;> simp [RpmSys.stepAll, RpmSys.handle, RpmSys.peerOf]

/-- An active-only handle with zero sleep cache stays so through every
sequence of calls on the pair. -/
theorem runAll_active_only_sleep_zero (env : RpmEnv) (calls : List ClkCall) (s : RpmSys)
    (h : Handle) (hao : (s.handle h).active_only = true)
    (hz : (s.handle h).last_set_sleep_khz = 0) :
    ((RpmSys.runAll env s calls).handle h).active_only = true ∧
    ((RpmSys.runAll env s calls).handle h).last_set_sleep_khz = 0 := by
  induction calls generalizing s with
  | nil => exact ⟨hao, hz⟩
  | cons c cs ih =>
    have hrun : RpmSys.runAll env s (c :: cs) = RpmSys.runAll env (RpmSys.stepAll env s c) cs :=
      rfl
    rw [hrun]
    apply ih
    · rw [stepAll_handle]
      split_ifs
      · rw [(applyOp_immutable env c.status c.op _ _ _).2.2.2]
        exact hao
      · exact hao
    · rw [stepAll_handle]
      split_ifs
      · exact applyOp_sleep_zero env c.status c.op _ _ _ hao hz
      · exact hz

/-- C12. Active-only handles contribute 0 to the sleep aggregate: an
active-only handle whose sleep cache is initially 0 keeps a zero sleep cache
after any sequence of calls of the operations (Enable, Disable, SetRate,
Handoff and the others) on it or on its peer, with any remote outcomes.
Consequently every sleep-context value that a further call on it transmits,
the call being one its operation table offers, is the peer-only sleep
requirement (the sleep cache of the peer if the peer is enabled, else 0),
coerced to 0 or 1 for a branch. -/
theorem active_only_sleep_zero (env : RpmEnv) (s0 : RpmSys) (calls : List ClkCall)
    (h : Handle) (hao : (s0.handle h).active_only = true)
    (hz : (s0.handle h).last_set_sleep_khz = 0) :
    ((RpmSys.runAll env s0 calls).handle h).last_set_sleep_khz = 0 ∧
    ∀ c : ClkCall, c.h = h →
      dispatchable ((RpmSys.runAll env s0 calls).handle h) c.op = true →
      ∀ x ∈ (RpmSys.stepAll env (RpmSys.runAll env s0 calls) c).rpm.log.drop
          (RpmSys.runAll env s0 calls).rpm.log.length,
        x.ctx = RpmCtx.MSM_RPM_CTX_SET_SLEEP →
          x.iv_value = coerce ((RpmSys.runAll env s0 calls).handle h)
            (peerSleepKhz ((RpmSys.runAll env s0 calls).peerOf h)) := by
  obtain ⟨hao1, hz1⟩ := runAll_active_only_sleep_zero env calls s0 h hao hz
  refine ⟨hz1, ?_⟩
  intro c hc hd x hx hctx
  rw [stepAll_rpm, hc] at hx
  exact applyOp_sleep_values env c.status c.op _ _ _ hao1 hz1 hd x hx hctx

/-- Witness of C12: A active-only next to an enabled peer cached at 3000/3000;
after Handoff(A) reporting 5000, Enable(A), SetRate(A, 2 MHz) and
SetRate(B, 4 MHz) the sleep cache of A is 0, and a further SetRate(A, 6 MHz)
transmits the sleep cache of the peer, 4000, to the sleep context. -/
theorem active_only_sleep_zero_witness :
    ((RpmSys.runAll envOk sysActiveOnly callsActiveOnly).handle Handle.A).last_set_sleep_khz =
        0 ∧
      ((RpmSys.stepAll envOk (RpmSys.runAll envOk sysActiveOnly callsActiveOnly)
          (callOn Handle.A (AnyOp.set_rate 6000000))).rpm.log.drop
          (RpmSys.runAll envOk sysActiveOnly callsActiveOnly).rpm.log.length).all
        (fun x => decide (x.ctx = RpmCtx.MSM_RPM_CTX_SET_SLEEP → x.iv_value = 4000)) = true :=
  ⟨(active_only_sleep_zero envOk sysActiveOnly callsActiveOnly Handle.A rfl rfl).1,
   List.all_eq_true.2 (fun x hx => decide_eq_true (fun hctx =>
     ((active_only_sleep_zero envOk sysActiveOnly callsActiveOnly Handle.A rfl rfl).2
       (callOn Handle.A (AnyOp.set_rate 6000000)) rfl (by decide) x hx hctx).trans
       (by decide)))⟩

/-- An operation on a handle whose cached rate is 0 before and after it, and
whose remote set calls all succeed, issues no remote set call. -/
theorem applyOp_no_calls_of_zero_cache (env : RpmEnv) (status : RpmStatusEnv) (op : AnyOp)
    (r peer : rpm_clk) (w : Rpm) (h0 : r.last_set_khz = 0)
    (h1 : (applyOp env status op r peer w).1.last_set_khz = 0)
    (hok : ∀ x ∈ (applyOp env status op r peer w).2.log.drop w.log.length, x.rc = 0) :
    (applyOp env status op r peer w).2.log.drop w.log.length = [] := by
  cases op
  · simp [applyOp, rpm_clk_enable, rpm_clk_enable_out, h0]
  · simp [applyOp, rpm_clk_disable, h0]
  · rename_i rate
    revert h1 hok
    simp only [applyOp, rpm_clk_set_rate, h0]
    by_cases hk : 0 = DIV_ROUND_UP rate 1000
    · simp [hk]
    · have hk1 : ¬ DIV_ROUND_UP rate 1000 = 0 := fun h => hk h.symm
      cases hen : r.enabled
      · simp [hk, hk1]
      · simp only [hk, if_false, if_true]
        generalize hv0 : max (DIV_ROUND_UP rate 1000)
          (if peer.enabled = true then peer.last_set_khz else 0) = v0
        generalize hv1 : max (if r.active_only = true then 0 else DIV_ROUND_UP rate 1000)
          (if peer.enabled = true then peer.last_set_sleep_khz else 0) = v1
        by_cases e0 : env w.log RpmCtx.MSM_RPM_CTX_SET_0 r.rpm_clk_id v0 = 0
        · by_cases e1 : env (w.log ++ [setActive r.rpm_clk_id v0 0])
              RpmCtx.MSM_RPM_CTX_SET_SLEEP r.rpm_clk_id v1 = 0
          · simp only [setActive] at e1
            simp [msm_rpmrs_set_noirq, e0, e1, hk1]
          · simp only [setActive] at e1
            simp [msm_rpmrs_set_noirq, e0, e1]
        · simp [msm_rpmrs_set_noirq, e0]
  · simp [applyOp]
  · simp [applyOp]
  · simp [applyOp]
  · simp [applyOp]
  · simp [applyOp]

/-- While the cached rate of a handle stays 0 and the remote set calls made on
its behalf succeed, no remote set call is made on its behalf at all. -/
theorem issuedBy_nil_of_zero_cache (env : RpmEnv) (h : Handle) (calls : List ClkCall)
    (s : RpmSys)
    (hzero : ∀ n, ((RpmSys.runAll env s (calls.take n)).handle h).last_set_khz = 0)
    (hok : ∀ x ∈ issuedBy env h s calls, x.rc = 0) :
    issuedBy env h s calls = [] := by
  induction calls generalizing s with
  | nil => rfl
  | cons c cs ih =>
    have hs : (s.handle h).last_set_khz = 0 := hzero 0
    have hs1 : ((RpmSys.stepAll env s c).handle h).last_set_khz = 0 := hzero 1
    have hrest : issuedBy env h (RpmSys.stepAll env s c) cs = [] := by
      apply ih
      · intro n
        exact hzero (n + 1)
      · intro x hx
        exact hok x (List.mem_append_right _ hx)
    simp only [issuedBy, hrest, List.append_nil] at hok ⊢
    by_cases hc : c.h = h
    · simp only [hc, if_true] at hok ⊢
      rw [stepAll_handle, if_pos hc] at hs1
      rw [stepAll_rpm, hc] at hok ⊢
      exact applyOp_no_calls_of_zero_cache env c.status c.op _ _ _ hs hs1 hok
    · simp [hc]

/-- Counterexample to C13 as stated. With all remote calls succeeding,
SetRate(A, 1 MHz), Enable(A), SetRate(A, 0) leave the cached rate of A at 0
although two active-context calls were issued on its behalf. With all remote
calls failing, Enable(A), SetRate(A, 1 MHz) leave the cached rate at 0 after
every call although an active-context call was issued. -/
theorem zero_cache_after_active_votes :
    ((RpmSys.runAll envOk sys0 callsResetToZero).handle Handle.A).last_set_khz = 0 ∧
    issuedBy envOk Handle.A sys0 callsResetToZero =
      [setActive 7 1000 0, setSleep 7 1000 0, setActive 7 0 0, setSleep 7 0 0] ∧
    ((RpmSys.runAll envFail sys0 (callsEnableThenRate.take 1)).handle Handle.A).last_set_khz =
      0 ∧
    ((RpmSys.runAll envFail sys0 callsEnableThenRate).handle Handle.A).last_set_khz = 0 ∧
    issuedBy envFail Handle.A sys0 callsEnableThenRate = [setActive 7 1000 (-5)] := by
  decide

/-- C13, amended. For a handle whose cached rate is 0 initially and after
every call of a sequence of calls of the operations on it or on its peer, and
on whose behalf no remote set call of the sequence fails, no active-context
remote set call has been issued by an operation on this handle. -/
theorem unset_rate_no_active_vote (env : RpmEnv) (s0 : RpmSys) (calls : List ClkCall)
    (h : Handle)
    (hzero : ∀ n, ((RpmSys.runAll env s0 (calls.take n)).handle h).last_set_khz = 0)
    (hok : ∀ x ∈ issuedBy env h s0 calls, x.rc = 0) :
    ∀ x ∈ issuedBy env h s0 calls, x.ctx ≠ RpmCtx.MSM_RPM_CTX_SET_0 := by
  intro x hx
  rw [issuedBy_nil_of_zero_cache env h calls s0 hzero hok] at hx
  cases hx

/-- Witness of the amended C13: Enable(A), GetRate(A), SetRate(A, 0),
SetRate(B, 1 MHz), Disable(A) keep the cached rate of A at 0, and no
active-context call is issued on behalf of A. -/
theorem unset_rate_no_active_vote_witness :
    (issuedBy envOk Handle.A sys0 callsUnset).all
      (fun x => decide (x.ctx ≠ RpmCtx.MSM_RPM_CTX_SET_0)) = true :=
  List.all_eq_true.2 (fun x hx => decide_eq_true
    (unset_rate_no_active_vote envOk sys0 callsUnset Handle.A
      (by
        intro n
        rcases n with _ | _ | _ | _ | _ | n
        all_goals first
          | decide
          | (simp only [callsUnset, List.take_succ_cons, List.take_nil]; decide))
      (by decide) x hx))

/-- Counterexample to C14 as stated: a successful status query reporting
4294968 kHz on a tunable handle publishes the rate 704 Hz, not
4294968000 Hz, because the product wraps in 32 bits. -/
theorem handoff_rate_wraps :
    rpm_clk_handoff (statusOk 4294968) (mkClk 0 0 false) =
        (handoff.HANDOFF_ENABLED_CLK, { mkClk 4294968 4294968 false with rate := 704 }) ∧
      4294968 * 1000 ≠ 704 := by
  decide

/-- C14, amended. Handoff, successful query reporting `v`: Handoff returns
`HANDOFF_ENABLED_CLK`, branch or not. A tunable handle gets `last_set_khz = v`,
`last_set_sleep_khz = v` unless it is active-only (then the sleep cache is
unchanged), and the published rate `v * 1000` computed in 32-bit unsigned
arithmetic, which is `v * 1000` Hz whenever that is below `2 ^ 32`. A branch
handle is unchanged. The enabled flag is unchanged in every case. -/
theorem handoff_success (status : RpmStatusEnv) (r : rpm_clk)
    (hok : ¬ (status r.rpm_status_id).1 < 0) :
    (rpm_clk_handoff status r).1 = handoff.HANDOFF_ENABLED_CLK ∧
    (r.branch = false →
      (rpm_clk_handoff status r).2 =
        { r with last_set_khz := (status r.rpm_status_id).2,
                 last_set_sleep_khz :=
                   if r.active_only = true then r.last_set_sleep_khz
                   else (status r.rpm_status_id).2,
                 rate := ((status r.rpm_status_id).2 * 1000) % ULONG_MOD } ∧
      ((status r.rpm_status_id).2 * 1000 < ULONG_MOD →
        (rpm_clk_handoff status r).2.rate = (status r.rpm_status_id).2 * 1000)) ∧
    (r.branch = true → (rpm_clk_handoff status r).2 = r) ∧
    (rpm_clk_handoff status r).2.enabled = r.enabled := by
  refine ⟨?_, ?_, ?_, ?_⟩
  · simp only [rpm_clk_handoff, msm_rpm_get_status, hok, if_false]
    split_ifs <;> rfl
  · intro hbr
    refine ⟨?_, ?_⟩
    · cases hao : r.active_only <;>
        simp [rpm_clk_handoff, msm_rpm_get_status, hok, hbr, hao]
    · intro hlt
      simp [rpm_clk_handoff, msm_rpm_get_status, hok, hbr, Nat.mod_eq_of_lt hlt]
  · intro hbr
    simp [rpm_clk_handoff, msm_rpm_get_status, hok, hbr]
  · simp only [rpm_clk_handoff, msm_rpm_get_status, hok, if_false]
    split_ifs <;> rfl

/-- Witness of the amended C14: a tunable handle whose status query reports
5000 gets `last_set_khz = 5000`, the published rate 5,000,000 Hz and the
result `HANDOFF_ENABLED_CLK`. -/
theorem handoff_success_witness :
    (rpm_clk_handoff (statusOk 5000) (mkClk 0 0 false)).1 = handoff.HANDOFF_ENABLED_CLK ∧
      (rpm_clk_handoff (statusOk 5000) (mkClk 0 0 false)).2 =
        { mkClk 5000 5000 false with rate := 5000000 } :=
  ⟨(handoff_success (statusOk 5000) (mkClk 0 0 false) (by decide)).1,
   ((handoff_success (statusOk 5000) (mkClk 0 0 false) (by decide)).2.1 rfl).1.trans
     (by decide)⟩

/-- C15. Handoff, failed query: Handoff returns `HANDOFF_DISABLED_CLK` exactly
when the status query returns a negative code, and in that case the record of
the handle (both caches, the enabled flag and the published rate) is
unchanged. -/
theorem handoff_failure (status : RpmStatusEnv) (r : rpm_clk) :
    ((rpm_clk_handoff status r).1 = handoff.HANDOFF_DISABLED_CLK ↔
      (status r.rpm_status_id).1 < 0) ∧
    ((status r.rpm_status_id).1 < 0 → (rpm_clk_handoff status r).2 = r) := by
  refine ⟨?_, ?_⟩
  · by_cases h : (status r.rpm_status_id).1 < 0
    · simp [rpm_clk_handoff, msm_rpm_get_status, h]
    · simp only [rpm_clk_handoff, msm_rpm_get_status, h, if_false, iff_false]
      split_ifs <;> simp
  · intro h
    simp [rpm_clk_handoff, msm_rpm_get_status, h]

/-- Witness of C15: a status query failing with -5 on a handle cached at
1000/1000 gives `HANDOFF_DISABLED_CLK` and leaves the handle as it was. -/
theorem handoff_failure_witness :
    (rpm_clk_handoff (statusFail (-5)) (mkClk 1000 1000 true)).1 =
        handoff.HANDOFF_DISABLED_CLK ∧
      (rpm_clk_handoff (statusFail (-5)) (mkClk 1000 1000 true)).2 = mkClk 1000 1000 true :=
  ⟨(handoff_failure (statusFail (-5)) (mkClk 1000 1000 true)).1.2 (by decide),
   (handoff_failure (statusFail (-5)) (mkClk 1000 1000 true)).2 (by decide)⟩

/-- A negative C `int` converted to `unsigned long` is `2 ^ 32` plus the code,
at least `2 ^ 31`. -/
theorem ulong_of_int_neg (rc : Int) (hneg : rc < 0) (hmin : -2147483648 ≤ rc) :
    (ulong_of_int rc : Int) = 4294967296 + rc ∧ 2147483648 ≤ ulong_of_int rc := by
  unfold ulong_of_int ULONG_MOD
  norm_num
  omega

/-- Counterexample to C16 as stated: a status query failing with -16 and a
successful status query reporting 304942678 make GetRate return the same
value, 4294967280. -/
theorem get_rate_failure_collides :
    rpm_clk_get_rate (statusFail (-16)) (mkClk 0 0 false) = 4294967280 ∧
      rpm_clk_get_rate (statusOk 304942678) (mkClk 0 0 false) = 4294967280 := by
  decide

/-- C16, amended. GetRate result: when the status query succeeds with value
`v`, GetRate returns `v * 1000` computed in 32-bit unsigned arithmetic; when
it fails with a negative `int` code, GetRate returns that code converted to
`unsigned long`, that is `2 ^ 32` plus the code, a value of at least `2 ^ 31`
that no successful query with `v * 1000` below `2 ^ 31` produces. GetRate
depends on the handle only through its status id: it reads no cache, and it
returns a value only. -/
theorem get_rate_result (status : RpmStatusEnv) (r : rpm_clk) :
    (¬ (status r.rpm_status_id).1 < 0 →
      rpm_clk_get_rate status r = ((status r.rpm_status_id).2 * 1000) % ULONG_MOD) ∧
    ((status r.rpm_status_id).1 < 0 → -2147483648 ≤ (status r.rpm_status_id).1 →
      (rpm_clk_get_rate status r : Int) = 4294967296 + (status r.rpm_status_id).1 ∧
      2147483648 ≤ rpm_clk_get_rate status r ∧
      ∀ (st : RpmStatusEnv) (r1 : rpm_clk), ¬ (st r1.rpm_status_id).1 < 0 →
        (st r1.rpm_status_id).2 * 1000 < 2147483648 →
        rpm_clk_get_rate st r1 ≠ rpm_clk_get_rate status r) ∧
    (∀ r1 : rpm_clk, r1.rpm_status_id = r.rpm_status_id →
      rpm_clk_get_rate status r1 = rpm_clk_get_rate status r) := by
  have hsucc : ∀ (st : RpmStatusEnv) (r1 : rpm_clk), ¬ (st r1.rpm_status_id).1 < 0 →
      rpm_clk_get_rate st r1 = ((st r1.rpm_status_id).2 * 1000) % ULONG_MOD := by
    intro st r1 h
    simp [rpm_clk_get_rate, msm_rpm_get_status, h]
  refine ⟨hsucc status r, ?_, ?_⟩
  · intro hneg hmin
    have hval : rpm_clk_get_rate status r = ulong_of_int (status r.rpm_status_id).1 := by
      simp [rpm_clk_get_rate, msm_rpm_get_status, hneg]
    obtain ⟨h1, h2⟩ := ulong_of_int_neg _ hneg hmin
    rw [hval]
    refine ⟨h1, h2, ?_⟩
    intro st r1 hst hlt
    rw [hsucc st r1 hst]
    have hmod : ((st r1.rpm_status_id).2 * 1000) % ULONG_MOD =
        (st r1.rpm_status_id).2 * 1000 :=
      Nat.mod_eq_of_lt (by unfold ULONG_MOD; omega)
    rw [hmod]
    omega
  · intro r1 h1
    simp [rpm_clk_get_rate, h1]

/-- Witness of the amended C16: a status query failing with -5 makes GetRate
return 4294967291, which is `2 ^ 32 - 5`. -/
theorem get_rate_result_witness :
    (rpm_clk_get_rate (statusFail (-5)) (mkClk 0 0 false) : Int) = 4294967296 + (-5) ∧
      rpm_clk_get_rate (statusOk 5000) (mkClk 0 0 false) = (5000 * 1000) % ULONG_MOD :=
  ⟨((get_rate_result (statusFail (-5)) (mkClk 0 0 false)).2.1 (by decide) (by decide)).1,
   (get_rate_result (statusOk 5000) (mkClk 0 0 false)).1 (by decide)⟩

/-- Counterexample to C17 as stated: the rate 4294967295 Hz, the largest
`unsigned long`, converts to 0 kHz, not to 4294968, and SetRate takes it for
a duplicate of the unset rate. -/
theorem div_round_up_wraps :
    DIV_ROUND_UP 4294967295 1000 = 0 ∧
      rpm_clk_set_rate envOk (mkClk 0 0 true) (mkClk 0 0 false) rpm0 4294967295 =
        (0, mkClk 0 0 true, rpm0) := by
  decide

/-- C17, amended. Hz to kHz conversion: for every requested rate of at most
`2 ^ 32 - 1000` Hz the kHz value is the rate divided by 1000 rounded up, the
least `k` with `k * 1000` not below the rate; for the larger `unsigned long`
rates the sum wraps and the kHz value is 0. It is the value SetRate works
with: whenever SetRate returns 0 the cached rate is this value. -/
theorem div_round_up_khz (rate : Nat) :
    (rate ≤ ULONG_MOD - 1000 →
      rate ≤ DIV_ROUND_UP rate 1000 * 1000 ∧
      ∀ k, rate ≤ k * 1000 → DIV_ROUND_UP rate 1000 ≤ k) ∧
    (ULONG_MOD - 1000 < rate → rate < ULONG_MOD → DIV_ROUND_UP rate 1000 = 0) ∧
    (∀ (env : RpmEnv) (r peer : rpm_clk) (w : Rpm),
      (rpm_clk_set_rate env r peer w rate).1 = 0 →
        (rpm_clk_set_rate env r peer w rate).2.1.last_set_khz = DIV_ROUND_UP rate 1000) := by
  refine ⟨?_, ?_, ?_⟩
  · unfold DIV_ROUND_UP ULONG_MOD
    intro h
    have hmod : (rate + 1000 - 1) % 2 ^ 32 = rate + 999 := by omega
    rw [hmod]
    refine ⟨by omega, ?_⟩
    intro k hk
    omega
  · unfold DIV_ROUND_UP ULONG_MOD
    intro h1 h2
    omega
  · intro env r peer w
    unfold rpm_clk_set_rate
    by_cases hk : r.last_set_khz = DIV_ROUND_UP rate 1000
    · simp [hk]
    · cases hen : r.enabled
      · simp [hk]
      · simp only [hk, if_false, if_true]
        generalize hv0 : max (DIV_ROUND_UP rate 1000)
          (if peer.enabled = true then peer.last_set_khz else 0) = v0
        generalize hv1 : max (if r.active_only = true then 0 else DIV_ROUND_UP rate 1000)
          (if peer.enabled = true then peer.last_set_sleep_khz else 0) = v1
        by_cases h0 : env w.log RpmCtx.MSM_RPM_CTX_SET_0 r.rpm_clk_id v0 = 0
        · by_cases h1 : env (w.log ++ [setActive r.rpm_clk_id v0 0])
              RpmCtx.MSM_RPM_CTX_SET_SLEEP r.rpm_clk_id v1 = 0
          · simp only [setActive] at h1
            simp [msm_rpmrs_set_noirq, h0, h1]
          · simp only [setActive] at h1
            simp [msm_rpmrs_set_noirq, h0, h1]
        · simp [msm_rpmrs_set_noirq, h0]

/-- Witness of the amended C17: the rates 0, 1, 1000000 and 1000001 Hz convert
to 0, 1, 1000 and 1001 kHz, and 1000001 Hz is within the range that rounds
up. -/
theorem div_round_up_khz_witness :
    DIV_ROUND_UP 0 1000 = 0 ∧ DIV_ROUND_UP 1 1000 = 1 ∧ DIV_ROUND_UP 1000000 1000 = 1000 ∧
      DIV_ROUND_UP 1000001 1000 = 1001 ∧
      (1000001 ≤ DIV_ROUND_UP 1000001 1000 * 1000 ∧
        ∀ k, 1000001 ≤ k * 1000 → DIV_ROUND_UP 1000001 1000 ≤ k) :=
  ⟨by decide, by decide, by decide, by decide, (div_round_up_khz 1000001).1 (by decide)⟩

/-- C20. IsEnabled under a failed query: when the status query fails with a
negative `int` code, GetRate returns the code converted to `unsigned long`,
which is non-zero, and IsEnabled returns 1; when the query succeeds with value
`v`, IsEnabled returns 1 if `v * 1000` computed in 32-bit unsigned arithmetic
is non-zero and 0 otherwise. The enabled flag of the handle plays no part. -/
theorem is_enabled_result (status : RpmStatusEnv) (r : rpm_clk) :
    ((status r.rpm_status_id).1 < 0 → -2147483648 ≤ (status r.rpm_status_id).1 →
      rpm_clk_get_rate status r = ulong_of_int (status r.rpm_status_id).1 ∧
      rpm_clk_get_rate status r ≠ 0 ∧
      rpm_clk_is_enabled status r = 1) ∧
    (¬ (status r.rpm_status_id).1 < 0 →
      rpm_clk_is_enabled status r =
        if ((status r.rpm_status_id).2 * 1000) % ULONG_MOD ≠ 0 then 1 else 0) ∧
    (∀ b : Bool, rpm_clk_is_enabled status { r with enabled := b } =
      rpm_clk_is_enabled status r) := by
  refine ⟨?_, ?_, ?_⟩
  · intro hneg hmin
    have hval : rpm_clk_get_rate status r = ulong_of_int (status r.rpm_status_id).1 := by
      simp [rpm_clk_get_rate, msm_rpm_get_status, hneg]
    obtain ⟨_, h2⟩ := ulong_of_int_neg _ hneg hmin
    have hne : rpm_clk_get_rate status r ≠ 0 := by
      rw [hval]
      omega
    exact ⟨hval, hne, by simp [rpm_clk_is_enabled, hne]⟩
  · intro hok
    simp [rpm_clk_is_enabled, rpm_clk_get_rate, msm_rpm_get_status, hok]
  · intro b
    simp [rpm_clk_is_enabled, rpm_clk_get_rate]

/-- Witness of C20: with the status query failing with -5, IsEnabled returns 1
on a disabled handle; with the query reporting 0 it returns 0 on an enabled
handle. -/
theorem is_enabled_result_witness :
    rpm_clk_is_enabled (statusFail (-5)) (mkClk 0 0 false) = 1 ∧
      rpm_clk_is_enabled (statusOk 0) (mkClk 1000 1000 true) = 0 :=
  ⟨((is_enabled_result (statusFail (-5)) (mkClk 0 0 false)).1 (by decide) (by decide)).2.2,
   ((is_enabled_result (statusOk 0) (mkClk 1000 1000 true)).2.1 (by decide)).trans
     (by decide)⟩

/-- The steps of Enable agree with its result: replaying the writes gives the
new record, and the remote set calls among the steps are the calls logged. -/
theorem enable_events_agree (env : RpmEnv) (r peer : rpm_clk) (w : Rpm) :
    replay r (rpm_clk_enable_events env r peer w) = (rpm_clk_enable env r peer w).2.1 ∧
    sentOf (rpm_clk_enable_events env r peer w) =
      ((rpm_clk_enable env r peer w).2.2.log.drop w.log.length).map
        (fun c => (c.ctx, c.iv_value)) := by
  simp only [rpm_clk_enable_events, rpm_clk_enable, rpm_clk_enable_out_events,
    rpm_clk_enable_out, msm_rpmrs_set_noirq]
  split_ifs <;> simp_all [replay, sentOf]

/-- The steps of Disable agree with its result. -/
theorem disable_events_agree (env : RpmEnv) (r peer : rpm_clk) (w : Rpm) :
    replay r (rpm_clk_disable_events env r peer w) = (rpm_clk_disable env r peer w).1 ∧
    sentOf (rpm_clk_disable_events env r peer w) =
      ((rpm_clk_disable env r peer w).2.log.drop w.log.length).map
        (fun c => (c.ctx, c.iv_value)) := by
  simp only [rpm_clk_disable_events, rpm_clk_disable, msm_rpmrs_set_noirq]
  split_ifs <;> simp_all [replay, sentOf]

/-- The steps of SetRate agree with its result. -/
theorem set_rate_events_agree (env : RpmEnv) (r peer : rpm_clk) (w : Rpm) (rate : Nat) :
    replay r (rpm_clk_set_rate_events env r peer w rate) =
      (rpm_clk_set_rate env r peer w rate).2.1 ∧
    sentOf (rpm_clk_set_rate_events env r peer w rate) =
      ((rpm_clk_set_rate env r peer w rate).2.2.log.drop w.log.length).map
        (fun c => (c.ctx, c.iv_value)) := by
  simp only [rpm_clk_set_rate_events, rpm_clk_set_rate, msm_rpmrs_set_noirq]
  split_ifs <;> simp_all [replay, sentOf]

/-- The steps of Handoff agree with its result. -/
theorem handoff_events_agree (status : RpmStatusEnv) (r : rpm_clk) :
    replay r (rpm_clk_handoff_events status r) = (rpm_clk_handoff status r).2 ∧
    sentOf (rpm_clk_handoff_events status r) = [] := by
  simp only [rpm_clk_handoff_events, rpm_clk_handoff]
  split_ifs <;> simp_all [replay, sentOf]

/-- Counterexample to C18 as stated: Handoff on a tunable handle whose status
query reports 5000 writes `last_set_khz` and `last_set_sleep_khz` without
taking `rpm_clock_lock`. -/
theorem handoff_writes_without_lock :
    rpm_clk_handoff_events (statusOk 5000) (mkClk 0 0 false) =
        [Ev.get_status, Ev.write_last_set_khz 5000, Ev.write_last_set_sleep_khz 5000,
         Ev.write_rate 5000000] ∧
      underLock false (rpm_clk_handoff_events (statusOk 5000) (mkClk 0 0 false)) = false := by
  decide

/-- The steps of Enable, Disable and SetRate start by taking the lock and end
by releasing it, and keep the locking discipline. -/
theorem clkOpEvents_bracketed (env : RpmEnv) (op : ClkOp) (r peer : rpm_clk) (w : Rpm) :
    bracketed (clkOpEvents env op r peer w) = true ∧
    underLock false (clkOpEvents env op r peer w) = true := by
  cases op
  · simp only [clkOpEvents, rpm_clk_enable_events, rpm_clk_enable_out_events,
      msm_rpmrs_set_noirq]
    split_ifs <;> simp_all [underLock, bracketed, closes]
  · simp only [clkOpEvents, rpm_clk_disable_events, msm_rpmrs_set_noirq]
    split_ifs <;> simp [underLock, bracketed, closes]
  · simp only [clkOpEvents, rpm_clk_set_rate_events, msm_rpmrs_set_noirq]
    split_ifs <;> simp [underLock, bracketed, closes]

/-- A handle other than `i` is the other handle of the pair. -/
theorem handle_other (i j h : Handle) (hij : i ≠ j) (hh : h ≠ i) : h = j := by
  cases i <;> cases j <;> cases h <;> simp_all

/-- A run in which the operation on `i` has no step left consists of the
steps of the operation on the other handle. -/
theorem run_of_other (i j : Handle) (hij : i ≠ j) (m : List (Handle × Ev))
    (hi : stepsOf i m = []) : m = tagSteps j (stepsOf j m) := by
  induction m with
  | nil => rfl
  | cons x m ih =>
    obtain ⟨h, e⟩ := x
    by_cases hh : h = i
    · simp [stepsOf, hh] at hi
    · have hj : h = j := handle_other i j h hij hh
      have hi1 : stepsOf i m = [] := by
        simpa [stepsOf, hh] using hi
      have hrec := ih hi1
      simp only [stepsOf, tagSteps] at hrec ⊢
      simp only [hj, List.filter_cons, decide_True, if_true, List.map_cons]
      rw [← hrec]

/-- While the operation on `i` holds the lock, a run that the lock admits
first finishes the operation on `i`; the operation on the other handle, which
has yet to take the lock, runs after it. -/
theorem run_while_held (i j : Handle) (hij : i ≠ j) (m : List (Handle × Ev))
    (hi : closes (stepsOf i m) = true)
    (hj : stepsOf j m = [] ∨ (stepsOf j m).head? = some Ev.spin_lock_irqsave)
    (hadm : lockAdmits (some i) m = true) :
    m = tagSteps i (stepsOf i m) ++ tagSteps j (stepsOf j m) := by
  induction m with
  | nil => simp [stepsOf, closes] at hi
  | cons x m ih =>
    obtain ⟨h, e⟩ := x
    by_cases hh : h = i
    · subst hh
      have hne : ¬ (h = j) := hij
      have hsi : stepsOf h ((h, e) :: m) = e :: stepsOf h m := by simp [stepsOf]
      have hsj : stepsOf j ((h, e) :: m) = stepsOf j m := by simp [stepsOf, hne]
      rw [hsi] at hi
      rw [hsj] at hj
      rw [hsi, hsj]
      by_cases hu : e = Ev.spin_unlock_irqrestore
      · simp only [closes, hu, if_true, List.isEmpty_iff] at hi
        have hrest := run_of_other h j hij m hi
        rw [hi]
        simp only [tagSteps, List.map_cons, List.map_nil, List.cons_append, List.nil_append]
        rw [hu]
        exact congrArg _ hrest
      · simp only [closes, hu, if_false] at hi
        have hl : e ≠ Ev.spin_lock_irqsave := by
          intro hl
          simp [lockAdmits, hl] at hadm
        have hadm1 : lockAdmits (some h) m = true := by
          simpa [lockAdmits, hl, hu] using hadm
        have hrec := ih hi hj hadm1
        simp only [tagSteps, List.map_cons, List.cons_append]
        exact congrArg _ hrec
    · have hjh : h = j := handle_other i j h hij hh
      subst hjh
      have hsj : stepsOf h ((h, e) :: m) = e :: stepsOf h m := by simp [stepsOf]
      rw [hsj] at hj
      rcases hj with hj | hj
      · cases hj
      · simp only [List.head?_cons, Option.some.injEq] at hj
        simp [lockAdmits, hj] at hadm

/-- Two operations that each start by taking the lock and end by releasing it
cannot overlap: a run of the two that the lock admits is one operation as a
whole followed by the other as a whole. -/
theorem bracketed_runs_serial (m : List (Handle × Ev))
    (hA : bracketed (stepsOf Handle.A m) = true) (hB : bracketed (stepsOf Handle.B m) = true)
    (hadm : lockAdmits none m = true) :
    m = tagSteps Handle.A (stepsOf Handle.A m) ++ tagSteps Handle.B (stepsOf Handle.B m) ∨
    m = tagSteps Handle.B (stepsOf Handle.B m) ++ tagSteps Handle.A (stepsOf Handle.A m) := by
  cases m with
  | nil => simp [stepsOf, bracketed] at hA
  | cons x m =>
    obtain ⟨h, e⟩ := x
    cases h
    · left
      have hsA : stepsOf Handle.A ((Handle.A, e) :: m) = e :: stepsOf Handle.A m := by
        simp [stepsOf]
      have hsB : stepsOf Handle.B ((Handle.A, e) :: m) = stepsOf Handle.B m := by
        simp [stepsOf]
      rw [hsA] at hA
      rw [hsB] at hB
      rw [hsA, hsB]
      simp only [bracketed, Bool.and_eq_true, decide_eq_true_eq] at hA
      obtain ⟨he, hcl⟩ := hA
      have hadm1 : lockAdmits (some Handle.A) m = true := by
        simpa [lockAdmits, he] using hadm
      have hB1 : stepsOf Handle.B m = [] ∨
          (stepsOf Handle.B m).head? = some Ev.spin_lock_irqsave := by
        right
        cases hs : stepsOf Handle.B m with
        | nil => simp [hs, bracketed] at hB
        | cons e1 t1 =>
          rw [hs] at hB
          simp only [bracketed, Bool.and_eq_true, decide_eq_true_eq] at hB
          simp [hB.1]
      have hrec := run_while_held Handle.A Handle.B (by decide) m hcl hB1 hadm1
      simp only [tagSteps, List.map_cons, List.cons_append]
      exact congrArg _ hrec
    · right
      have hsB : stepsOf Handle.B ((Handle.B, e) :: m) = e :: stepsOf Handle.B m := by
        simp [stepsOf]
      have hsA : stepsOf Handle.A ((Handle.B, e) :: m) = stepsOf Handle.A m := by
        simp [stepsOf]
      rw [hsA] at hA
      rw [hsB] at hB
      rw [hsA, hsB]
      simp only [bracketed, Bool.and_eq_true, decide_eq_true_eq] at hB
      obtain ⟨he, hcl⟩ := hB
      have hadm1 : lockAdmits (some Handle.B) m = true := by
        simpa [lockAdmits, he] using hadm
      have hA1 : stepsOf Handle.A m = [] ∨
          (stepsOf Handle.A m).head? = some Ev.spin_lock_irqsave := by
        right
        cases hs : stepsOf Handle.A m with
        | nil => simp [hs, bracketed] at hA
        | cons e1 t1 =>
          rw [hs] at hA
          simp only [bracketed, Bool.and_eq_true, decide_eq_true_eq] at hA
          simp [hA.1]
      have hrec := run_while_held Handle.B Handle.A (by decide) m hcl hA1 hadm1
      simp only [tagSteps, List.map_cons, List.cons_append]
      exact congrArg _ hrec

/-- C18, amended. Locking discipline of Enable, Disable and SetRate: in every
execution of these three operations every write to the enabled flag or to one
of the two caches, every read of the peer and every remote set call happens
while `rpm_clock_lock` is held, so that two of these operations running
concurrently on the peer handles cannot interleave: every run of their steps
that the lock admits is one operation as a whole followed by the other as a
whole. Handoff never takes the lock: on a tunable handle a successful Handoff
writes the caches without holding it, and its steps can fall between the
steps of Enable on the peer. -/
theorem lock_discipline (envA envB : RpmEnv) (opA opB : ClkOp) (rA peerA rB peerB : rpm_clk)
    (wA wB : Rpm) (status : RpmStatusEnv) (r : rpm_clk) (m : List (Handle × Ev)) :
    underLock false (clkOpEvents envA opA rA peerA wA) = true ∧
    (stepsOf Handle.A m = clkOpEvents envA opA rA peerA wA →
      stepsOf Handle.B m = clkOpEvents envB opB rB peerB wB →
      lockAdmits none m = true →
        m = tagSteps Handle.A (clkOpEvents envA opA rA peerA wA) ++
              tagSteps Handle.B (clkOpEvents envB opB rB peerB wB) ∨
        m = tagSteps Handle.B (clkOpEvents envB opB rB peerB wB) ++
              tagSteps Handle.A (clkOpEvents envA opA rA peerA wA)) ∧
    Ev.spin_lock_irqsave ∉ rpm_clk_handoff_events status r ∧
    (¬ (status r.rpm_status_id).1 < 0 → r.branch = false →
      underLock false (rpm_clk_handoff_events status r) = false) ∧
    (stepsOf Handle.A raceEnableHandoff =
        rpm_clk_enable_events envOk (mkClk 1000 1000 false) (mkClk 0 0 true) rpm0 ∧
      stepsOf Handle.B raceEnableHandoff =
        rpm_clk_handoff_events (statusOk 5000) (mkClk 0 0 true) ∧
      lockAdmits none raceEnableHandoff = true ∧
      raceEnableHandoff ≠
        tagSteps Handle.A (stepsOf Handle.A raceEnableHandoff) ++
          tagSteps Handle.B (stepsOf Handle.B raceEnableHandoff) ∧
      raceEnableHandoff ≠
        tagSteps Handle.B (stepsOf Handle.B raceEnableHandoff) ++
          tagSteps Handle.A (stepsOf Handle.A raceEnableHandoff)) := by
  refine ⟨(clkOpEvents_bracketed envA opA rA peerA wA).2, ?_, ?_, ?_, by decide⟩
  · intro hA hB hadm
    have h := bracketed_runs_serial m
      (by rw [hA]; exact (clkOpEvents_bracketed envA opA rA peerA wA).1)
      (by rw [hB]; exact (clkOpEvents_bracketed envB opB rB peerB wB).1) hadm
    rw [hA, hB] at h
    exact h
  · simp only [rpm_clk_handoff_events]
    split_ifs <;> simp
  · intro hok hbr
    simp only [rpm_clk_handoff_events, msm_rpm_get_status, hok, hbr, if_false, if_true]
    simp [underLock]

/-- Witness of the amended C18: Disable on B (enabled at 2000/2000) and Enable
on A (cached at 1000/1000), the steps of B first. The run is admitted by the
lock and is one of the two serial runs. -/
theorem lock_discipline_witness :
    tagSteps Handle.B (rpm_clk_disable_events envOk (mkClk 2000 2000 true)
          (mkClk 1000 1000 false) rpm0) ++
        tagSteps Handle.A (rpm_clk_enable_events envOk (mkClk 1000 1000 false)
          (mkClk 2000 2000 false) rpm0) =
      tagSteps Handle.A (clkOpEvents envOk ClkOp.enable (mkClk 1000 1000 false)
          (mkClk 2000 2000 false) rpm0) ++
        tagSteps Handle.B (clkOpEvents envOk ClkOp.disable (mkClk 2000 2000 true)
          (mkClk 1000 1000 false) rpm0) ∨
    tagSteps Handle.B (rpm_clk_disable_events envOk (mkClk 2000 2000 true)
          (mkClk 1000 1000 false) rpm0) ++
        tagSteps Handle.A (rpm_clk_enable_events envOk (mkClk 1000 1000 false)
          (mkClk 2000 2000 false) rpm0) =
      tagSteps Handle.B (clkOpEvents envOk ClkOp.disable (mkClk 2000 2000 true)
          (mkClk 1000 1000 false) rpm0) ++
        tagSteps Handle.A (clkOpEvents envOk ClkOp.enable (mkClk 1000 1000 false)
          (mkClk 2000 2000 false) rpm0) :=
  (lock_discipline envOk envOk ClkOp.enable ClkOp.disable (mkClk 1000 1000 false)
    (mkClk 2000 2000 false) (mkClk 2000 2000 true) (mkClk 1000 1000 false) rpm0 rpm0
    (statusOk 5000) (mkClk 0 0 false)
    (tagSteps Handle.B (rpm_clk_disable_events envOk (mkClk 2000 2000 true)
        (mkClk 1000 1000 false) rpm0) ++
      tagSteps Handle.A (rpm_clk_enable_events envOk (mkClk 1000 1000 false)
        (mkClk 2000 2000 false) rpm0))).2.1 (by decide) (by decide) (by decide)

/-- Storing back what a pointer points to leaves the memory as it was. -/
theorem store_load_self (m : ClkMem) (p : Handle) :
    m.store p { m.load p with f := (m.load p).f } = m := by
  cases p <;> rfl

/-- Enable on the memory of the pair agrees with Enable on records. -/
theorem enable_mem_agrees (env : RpmEnv) (m : ClkMem) (clk : Handle) (w : Rpm) :
    rpm_clk_enable_mem env m clk w =
      ((rpm_clk_enable env (m.load clk).f (m.load (m.load clk).peer).f w).1,
       m.store clk { m.load clk with
         f := (rpm_clk_enable env (m.load clk).f (m.load (m.load clk).peer).f w).2.1 },
       (rpm_clk_enable env (m.load clk).f (m.load (m.load clk).peer).f w).2.2) := by
  have hself := store_load_self m clk
  simp only [rpm_clk_enable_mem, rpm_clk_enable, rpm_clk_enable_out_mem, rpm_clk_enable_out,
    ClkMem.set_enabled]
  split_ifs <;> simp_all


/-- Disable on the memory of the pair agrees with Disable on records. -/
theorem disable_mem_agrees (env : RpmEnv) (m : ClkMem) (clk : Handle) (w : Rpm) :
    rpm_clk_disable_mem env m clk w =
      (m.store clk { m.load clk with
         f := (rpm_clk_disable env (m.load clk).f (m.load (m.load clk).peer).f w).1 },
       (rpm_clk_disable env (m.load clk).f (m.load (m.load clk).peer).f w).2) := by
  have hself := store_load_self m clk
  simp only [rpm_clk_disable_mem, rpm_clk_disable, ClkMem.set_enabled]
  split_ifs <;> simp_all

/-- Two assignments through the same pointer: the later one stays. -/
theorem store_store (m : ClkMem) (p : Handle) (o1 o2 : RpmClkObj) :
    (m.store p o1).store p o2 = m.store p o2 := by
  cases p <;> rfl

/-- Reading through a pointer after an assignment through it. -/
theorem load_store (m : ClkMem) (p : Handle) (o : RpmClkObj) : (m.store p o).load p = o := by
  cases p <;> rfl

/-- SetRate on the memory of the pair agrees with SetRate on records. -/
theorem set_rate_mem_agrees (env : RpmEnv) (m : ClkMem) (clk : Handle) (w : Rpm)
    (rate : Nat) :
    rpm_clk_set_rate_mem env m clk w rate =
      ((rpm_clk_set_rate env (m.load clk).f (m.load (m.load clk).peer).f w rate).1,
       m.store clk { m.load clk with
         f := (rpm_clk_set_rate env (m.load clk).f (m.load (m.load clk).peer).f w rate).2.1 },
       (rpm_clk_set_rate env (m.load clk).f (m.load (m.load clk).peer).f w rate).2.2) := by
  have hself := store_load_self m clk
  simp only [rpm_clk_set_rate_mem, rpm_clk_set_rate, ClkMem.set_last_set_khz,
    ClkMem.set_last_set_sleep_khz, store_store, load_store]
  split_ifs <;> simp_all

/-- Handoff on the memory of the pair agrees with Handoff on records. -/
theorem handoff_mem_agrees (status : RpmStatusEnv) (m : ClkMem) (clk : Handle) :
    rpm_clk_handoff_mem status m clk =
      ((rpm_clk_handoff status (m.load clk).f).1,
       m.store clk { m.load clk with f := (rpm_clk_handoff status (m.load clk).f).2 }) := by
  have hself := store_load_self m clk
  simp only [rpm_clk_handoff_mem, rpm_clk_handoff, ClkMem.set_last_set_khz,
    ClkMem.set_last_set_sleep_khz, ClkMem.set_rate]
  split_ifs <;> simp_all [store_store, load_store]

/-- Reading through a pointer after an assignment through the other pointer. -/
theorem load_store_ne (m : ClkMem) (p q : Handle) (o : RpmClkObj) (hne : q ≠ p) :
    (m.store p o).load q = m.load q := by
  cases p <;> cases q <;> first | rfl | exact absurd rfl hne

/-- The operations on the memory of the pair agree with the operations on
records: the object behind `clk` gets the fields the operation computes from
the fields behind `clk` and behind its peer pointer, and the remote log is the
same. -/
theorem memOp_agrees (env : RpmEnv) (status : RpmStatusEnv) (op : AnyOp) (m : ClkMem)
    (clk : Handle) (w : Rpm) :
    memOp env status op m clk w =
      (m.store clk
         { m.load clk with
           f := (applyOp env status op (m.load clk).f (m.load (m.load clk).peer).f w).1 },
       (applyOp env status op (m.load clk).f (m.load (m.load clk).peer).f w).2) := by
  have hself := store_load_self m clk
  cases op
  · simp only [memOp, applyOp, enable_mem_agrees]
  · simp only [memOp, applyOp, disable_mem_agrees]
  · simp only [memOp, applyOp, set_rate_mem_agrees]
  · simp only [memOp, applyOp, hself]
  · simp only [memOp, applyOp, hself]
  · simp only [memOp, applyOp, hself]
  · simp only [memOp, applyOp, hself]
  · simp only [memOp, applyOp, handoff_mem_agrees]

/-- C19. Peer frame: a call of any of the eight operations on a handle whose
peer pointer points to the other object, with any arguments and any remote
outcomes, leaves the object of the peer as it was (its enabled flag, caches,
branch and active-only flags, ids and peer link), and leaves the resource
ids, the branch flag, the active-only flag and the peer link of the handle
itself as they were. -/
theorem peer_frame (env : RpmEnv) (status : RpmStatusEnv) (op : AnyOp) (m : ClkMem)
    (clk : Handle) (w : Rpm) (hpeer : (m.load clk).peer ≠ clk) :
    (memOp env status op m clk w).1.load (m.load clk).peer = m.load (m.load clk).peer ∧
    ((memOp env status op m clk w).1.load clk).peer = (m.load clk).peer ∧
    ((memOp env status op m clk w).1.load clk).f.rpm_clk_id = (m.load clk).f.rpm_clk_id ∧
    ((memOp env status op m clk w).1.load clk).f.rpm_status_id =
      (m.load clk).f.rpm_status_id ∧
    ((memOp env status op m clk w).1.load clk).f.branch = (m.load clk).f.branch ∧
    ((memOp env status op m clk w).1.load clk).f.active_only = (m.load clk).f.active_only := by
  have himm := applyOp_immutable env status op (m.load clk).f (m.load (m.load clk).peer).f w
  rw [memOp_agrees]
  simp only [load_store, load_store_ne m clk (m.load clk).peer _ hpeer]
  exact ⟨trivial, trivial, himm⟩

/-- Witness of C19: Enable on A of the pair `memPair`, all remote calls
succeeding, leaves the object of B as it was and only sets the enabled flag
of A. -/
theorem peer_frame_witness :
    (memOp envOk (statusOk 0) AnyOp.enable memPair Handle.A rpm0).1.load Handle.B =
        memPair.load Handle.B ∧
      ((memOp envOk (statusOk 0) AnyOp.enable memPair Handle.A rpm0).1.load Handle.A).peer =
        Handle.B :=
  ⟨(peer_frame envOk (statusOk 0) AnyOp.enable memPair Handle.A rpm0 (by decide)).1,
   (peer_frame envOk (statusOk 0) AnyOp.enable memPair Handle.A rpm0 (by decide)).2.1⟩

end ClockRpm
